import Mathlib

/-!
Verification development for the Pax-Historia world-state reducer.

The TypeScript sources are shallowly embedded: JavaScript objects keyed by
strings become association lists in insertion order (`StrMap`), JavaScript
numbers become exact rationals, `undefined`-able fields become `Option`,
and the asynchronous oracle calls (Gemini API, `Date.now()`) become explicit
environment parameters, so every state transition is a pure Lean function.
-/

namespace Pax

/-! ## String-keyed maps with JavaScript object semantics

A JS object literal keeps string keys in insertion order; assignment to an
existing key replaces the value in place, assignment to a fresh key appends.
-/

abbrev StrMap (α : Type) := List (String × α)

def StrMap.get {α : Type} : StrMap α → String → Option α
  | [], _ => none
  | p :: ps, k => if p.1 = k then some p.2 else StrMap.get ps k

def StrMap.insert {α : Type} : StrMap α → String → α → StrMap α
  | [], k, v => [(k, v)]
  | p :: ps, k, v => if p.1 = k then (k, v) :: ps else p :: StrMap.insert ps k v

def StrMap.erase {α : Type} (m : StrMap α) (k : String) : StrMap α :=
  m.filter fun p => decide (p.1 ≠ k)

def StrMap.values {α : Type} (m : StrMap α) : List α := m.map Prod.snd

def StrMap.keys {α : Type} (m : StrMap α) : List String := m.map Prod.fst

/-- Unique-keys invariant: what a real JS object always satisfies. -/
def StrMap.KeysNodup {α : Type} (m : StrMap α) : Prop := m.keys.Nodup

/-! ## JavaScript numeric helpers -/

/-- JS `x | 0` / `ToInt32`: wrap an exact integer to signed 32-bit. -/
def toInt32 (n : Int) : Int := (n + 2 ^ 31) % 2 ^ 32 - 2 ^ 31

/-- One step of the JS hash loop `hash = charCode + ((hash << 5) - hash)`
without the `|0` normalization (as in `stringToColor` and the inline loops of
`App.tsx`): `<<` wraps to int32 but the outer sum is exact. -/
def jsHashStep (h : Int) (c : Char) : Int :=
  (c.toNat : Int) + (toInt32 (toInt32 h * 32) - h)

/-- The un-normalized hash loop over a string (exact double arithmetic,
faithful for realistic name lengths). -/
def jsHashRaw (s : String) : Int := s.data.foldl jsHashStep 0

/-- One step of `simpleHash` from stateService.ts: same loop but with
`hash |= 0` after each step. -/
def simpleHashStep (h : Int) (c : Char) : Int :=
  toInt32 ((toInt32 (toInt32 h * 32) - h) + (c.toNat : Int))

/-- stateService.ts `simpleHash`: 32-bit hash loop followed by `Math.abs`. -/
def simpleHash (s : String) : Nat := (s.data.foldl simpleHashStep 0).natAbs

/-- Two-digit lowercase hex rendering of a byte, as
`('00' + value.toString(16)).substr(-2)`. -/
def byteToHex (v : Nat) : String :=
  let s := String.mk (Nat.toDigits 16 v)
  if v < 16 then "0" ++ s else s

/-- stateService.ts `stringToColor`: hash the name, emit three bytes as hex. -/
def stringToColor (str : String) : String :=
  let hash := jsHashRaw str
  let b0 := (toInt32 hash % 256 + 256) % 256
  let b1 := (toInt32 hash / 256 % 256 + 256) % 256
  let b2 := (toInt32 hash / 65536 % 256 + 256) % 256
  "#" ++ byteToHex b0.toNat ++ byteToHex b1.toNat ++ byteToHex b2.toNat

/-- Modelled from the spec: `getCountryColor` (imported by App.tsx from the
current stateService, whose file is present only in a pre-military revision)
is a deterministic hash of the name mapped to a hex RGB triple; the spec
requires determinism only, so we model it by the in-repo hash-to-hex map. -/
def getCountryColor (str : String) : String := stringToColor str

/-- JS `new Set([...])` insertion: keep the first occurrence of each element. -/
def jsSetAdd {α : Type} [DecidableEq α] (acc : List α) (x : α) : List α :=
  if x ∈ acc then acc else acc ++ [x]

/-- JS `[...new Set([...a, ...b])]`: dedup of the concatenation, keeping
first occurrences in order. -/
def jsSetUnion {α : Type} [DecidableEq α] (a b : List α) : List α :=
  (a ++ b).foldl jsSetAdd []

/-- JS truthiness of an optional string: `undefined` and `''` are falsy. -/
def strTruthy : Option String → Bool
  | none => false
  | some s => decide (s ≠ "")

/-- JS `s || dflt` for strings: empty or absent falls back to the default. -/
def jsOrStr (s : Option String) (dflt : String) : String :=
  match s with
  | none => dflt
  | some s => if s = "" then dflt else s

/-! ## Data model (types.ts, current revision) -/

structure Territory where
  id : String
  name : String
  parentCountryName : String
  owner : String
deriving DecidableEq

structure Country where
  name : String
  color : String
  gdp : ℚ
  population : ℚ
  stability : ℚ
  resources : List String
  militaryStrength : ℚ
  militaryTech : ℚ
deriving DecidableEq

structure City where
  id : String
  name : String
  coordinates : ℚ × ℚ
  territoryId : String
  isCapital : Bool
deriving DecidableEq

inductive UnitType where
  | ARMY
  | NAVY
  | AIR_FORCE
deriving DecidableEq

def UnitType.str : UnitType → String
  | .ARMY => "ARMY"
  | .NAVY => "NAVY"
  | .AIR_FORCE => "AIR_FORCE"

structure UnitLeader where
  name : String
  rank : String
deriving DecidableEq

structure UnitComposition where
  name : String
  equipment : List String
deriving DecidableEq

structure OrdersLogEntry where
  year : Int
  order : String
  outcome : String
deriving DecidableEq

structure MilitaryUnit where
  id : String
  owner : String
  type : UnitType
  name : String
  coordinates : ℚ × ℚ
  leader : UnitLeader
  composition : List UnitComposition
  strength : ℚ
  currentOrder : String
  ordersLog : List OrdersLogEntry
deriving DecidableEq

/-- A partial unit shell proposed by the deployment oracle
(`PartialMilitaryUnit` enriched with the fields `generateDeploymentFromBrief`
returns: type, coordinates and optional decoration). -/
structure ProposedUnit where
  type : UnitType
  coordinates : ℚ × ℚ
  name : Option String
  leader : Option UnitLeader
  composition : Option (List UnitComposition)
  strength : Option ℚ
  initialOrder : Option String
deriving DecidableEq

structure Arsenal where
  maxUnits : ℚ
  unitNames : List String
deriving DecidableEq

structure CountryArsenal where
  army : Arsenal
  navy : Arsenal
  airForce : Arsenal
deriving DecidableEq

def CountryArsenal.get (ca : CountryArsenal) : UnitType → Arsenal
  | .ARMY => ca.army
  | .NAVY => ca.navy
  | .AIR_FORCE => ca.airForce

def CountryArsenal.set (ca : CountryArsenal) : UnitType → Arsenal → CountryArsenal
  | .ARMY, a => { ca with army := a }
  | .NAVY, a => { ca with navy := a }
  | .AIR_FORCE, a => { ca with airForce := a }

inductive EventType where
  | ALLIANCE
  | ANNEXATION
  | TRADE_DEAL
  | WAR
  | PEACE
  | NARRATIVE
  | COUNTRY_FORMATION
  | ECONOMIC_SHIFT
  | CITY_RENAMED
  | CITY_DESTROYED
  | CITY_FOUNDED
  | CHAT_INVITATION
  | DEPLOY_UNIT
  | MANUFACTURE_COMPLETE
  | SCRAP_UNIT
deriving DecidableEq

structure EconomicEffect where
  country : String
  gdpChange : Option ℚ
  populationChange : Option ℚ
  stabilityChange : Option ℚ
  militaryStrengthChange : Option ℚ
  newResources : Option (List String)
deriving DecidableEq

structure WorldEvent where
  type : EventType
  countries : List String
  description : String
  territoryNames : Option (List String)
  newCountryName : Option String
  date : String
  economicEffects : Option (List EconomicEffect)
  cityName : Option String
  newCityName : Option String
  territoryForNewCity : Option String
  newCityCoordinates : Option (ℚ × ℚ)
  chatInitiator : Option String
  chatParticipants : Option (List String)
  unitType : Option UnitType
  locationDescription : Option String
  newUnitName : Option String
  maxUnitChange : Option ℚ
  unitId : Option String
deriving DecidableEq

/-- An all-`none` event skeleton; concrete events override the relevant fields. -/
def blankEvent : WorldEvent where
  type := .NARRATIVE
  countries := []
  description := ""
  territoryNames := none
  newCountryName := none
  date := ""
  economicEffects := none
  cityName := none
  newCityName := none
  territoryForNewCity := none
  newCityCoordinates := none
  chatInitiator := none
  chatParticipants := none
  unitType := none
  locationDescription := none
  newUnitName := none
  maxUnitChange := none
  unitId := none

structure ChatMessage where
  sender : String
  text : String
deriving DecidableEq

structure DiplomaticChat where
  id : String
  participants : List String
  messages : List ChatMessage
  topic : String
  currentSpeaker : Option String
deriving DecidableEq

structure GameState where
  territories : StrMap Territory
  countries : StrMap Country
  cities : List City
  playerCountryName : Option String
  year : Int
  events : List WorldEvent
  chats : StrMap DiplomaticChat
  pendingInvitations : List WorldEvent
  militaryUnits : StrMap MilitaryUnit
  arsenal : StrMap CountryArsenal
deriving DecidableEq

/-! ## Economic effects (App.tsx `processEconomicEffects`) -/

/-- Field-by-field clamped update of one country by one effect entry. -/
def applyEffect (c : Country) (e : EconomicEffect) : Country :=
  let c := match e.gdpChange with
    | some d => { c with gdp := max 1 (c.gdp + d) }
    | none => c
  let c := match e.populationChange with
    | some d => { c with population := max (1/10) (c.population + d) }
    | none => c
  let c := match e.stabilityChange with
    | some d => { c with stability := max 0 (min 100 (c.stability + d)) }
    | none => c
  let c := match e.militaryStrengthChange with
    | some d => { c with militaryStrength := max 0 (c.militaryStrength + d) }
    | none => c
  match e.newResources with
  | some rs => { c with resources := jsSetUnion c.resources rs }
  | none => c

/-- One `forEach` iteration: effects naming an absent country do nothing. -/
def processOneEffect (m : StrMap Country) (e : EconomicEffect) : StrMap Country :=
  match m.get e.country with
  | some c => m.insert e.country (applyEffect c e)
  | none => m

/-- App.tsx `processEconomicEffects`: fold the event's effect list, if any. -/
def processEconomicEffects (m : StrMap Country) (ev : WorldEvent) : StrMap Country :=
  match ev.economicEffects with
  | some effs => effs.foldl processOneEffect m
  | none => m

/-- The §3 numeric floors and clamps on one country's statistics. -/
def Country.ok (c : Country) : Prop :=
  0 ≤ c.stability ∧ c.stability ≤ 100 ∧ 1 ≤ c.gdp ∧
    (1/10 : ℚ) ≤ c.population ∧ 0 ≤ c.militaryStrength

instance (c : Country) : Decidable c.ok := by
  unfold Country.ok
  infer_instance

instance {α : Type} (m : StrMap α) : Decidable m.KeysNodup := by
  unfold StrMap.KeysNodup
  infer_instance

/-! ## Event application engine (App.tsx `handleNewEvents`)

The engine clones the mutable collections of the previous state into a
working record, folds the (reversed) batch through the per-type handlers,
and commits the result together with the bookkeeping fields.  The external
oracle (`generateDeploymentFromBrief`) and the wall clock (`Date.now()`) are
the only impure inputs; they are passed in as an environment consulted at an
explicit call counter (`tick`), `none` modelling a thrown/rejected call.
-/

structure OracleEnv where
  now : Nat → Nat
  deployResult : Nat → Option (List ProposedUnit)

structure WorkState where
  territories : StrMap Territory
  countries : StrMap Country
  cities : List City
  militaryUnits : StrMap MilitaryUnit
  arsenal : StrMap CountryArsenal
  tick : Nat
deriving DecidableEq

/-- Shared loop of ANNEXATION (explicit names) and COUNTRY_FORMATION:
for each listed name, find the first territory currently bearing it and
reassign its owner; unknown names fall through silently. -/
def reassignNamed (newOwner : String) (ts : StrMap Territory)
    (names : List String) : StrMap Territory :=
  names.foldl (fun ts name =>
    match ts.values.find? (fun t => decide (t.name = name)) with
    | some t => ts.insert t.id { t with owner := newOwner }
    | none => ts) ts

/-- ANNEXATION with no explicit territory list: every territory owned by the
target is reassigned to the aggressor (snapshot iteration, as
`Object.values(...).filter(...).forEach`). -/
def fullConquest (aggressor target : String) (ts : StrMap Territory) :
    StrMap Territory :=
  (ts.values.filter (fun t => decide (t.owner = target))).foldl
    (fun ts t => ts.insert t.id { t with owner := aggressor }) ts

def annexationHandler (ev : WorldEvent) (st : WorkState) : WorkState :=
  match ev.countries with
  | [aggressorName, targetCountryName] =>
    match ev.territoryNames with
    | some names =>
      if names.length > 0 then
        { st with territories := reassignNamed aggressorName st.territories names }
      else
        { st with territories := fullConquest aggressorName targetCountryName st.territories }
    | none =>
      { st with territories := fullConquest aggressorName targetCountryName st.territories }
  | _ => st

/-- The hash-derived baseline statistics of a newly formed country
(App.tsx COUNTRY_FORMATION handler). -/
def newFormationCountry (newCountryName : String) : Country :=
  let hash := jsHashRaw newCountryName
  { name := newCountryName
    color := getCountryColor newCountryName
    gdp := 5 + (hash.natAbs % 45 : Nat)
    population := 1 + (hash.natAbs % 10 : Nat)
    stability := 40 + (hash.natAbs % 20 : Nat)
    resources := []
    militaryStrength := 5 + (hash.natAbs % 15 : Nat)
    militaryTech := 1 + (hash.natAbs % 4 : Nat) }

def countryFormationHandler (ev : WorldEvent) (st : WorkState) : WorkState :=
  match ev.newCountryName, ev.territoryNames with
  | some newCountryName, some territoryNames =>
    if newCountryName = "" then st
    else
      let st :=
        if (st.countries.get newCountryName).isSome then st
        else { st with countries :=
          st.countries.insert newCountryName (newFormationCountry newCountryName) }
      { st with territories := reassignNamed newCountryName st.territories territoryNames }
  | _, _ => st

def cityFoundedHandler (env : OracleEnv) (ev : WorldEvent) (st : WorkState) :
    WorkState :=
  match ev.newCityName, ev.territoryForNewCity, ev.newCityCoordinates with
  | some newCityName, some territoryForNewCity, some newCityCoordinates =>
    if newCityName = "" ∨ territoryForNewCity = "" then st
    else
      match st.territories.values.find?
          (fun t => decide (t.name = territoryForNewCity)) with
      | some t =>
        { st with
          cities := st.cities ++
            [{ id := newCityName ++ "-" ++ toString (env.now st.tick)
               name := newCityName
               coordinates := newCityCoordinates
               territoryId := t.id
               isCapital := false }]
          tick := st.tick + 1 }
      | none => st
  | _, _, _ => st

def cityRenamedHandler (ev : WorldEvent) (st : WorkState) : WorkState :=
  match ev.cityName, ev.newCityName with
  | some cityName, some newCityName =>
    if cityName = "" ∨ newCityName = "" then st
    else
      { st with cities := st.cities.map (fun city =>
          if city.name = cityName then
            { city with name := newCityName
                        id := newCityName ++ "-" ++ city.territoryId }
          else city) }
  | _, _ => st

def cityDestroyedHandler (ev : WorldEvent) (st : WorkState) : WorkState :=
  match ev.cityName with
  | some cityName =>
    if cityName = "" then st
    else { st with cities := st.cities.filter (fun city => decide (city.name ≠ cityName)) }
  | none => st

/-- Count of deployed units of one country and type
(`Object.values(militaryUnits).filter(u => u.owner === c && u.type === t).length`). -/
def unitCount (units : StrMap MilitaryUnit) (c : String) (t : UnitType) : Nat :=
  (units.values.filter (fun u => decide (u.owner = c ∧ u.type = t))).length

/-- `arsenal[c]?.[t]?.maxUnits ?? 0`. -/
def maxUnitsOf (arsenal : StrMap CountryArsenal) (c : String) (t : UnitType) : ℚ :=
  match arsenal.get c with
  | some ca => (ca.get t).maxUnits
  | none => 0

/-- Build the `MilitaryUnit` the AI deploy handler stores from the first
oracle-proposed shell. -/
def unitFromProposal (countryName : String) (requested : UnitType) (now : Nat)
    (ud : ProposedUnit) : MilitaryUnit :=
  { id := countryName ++ "-" ++ requested.str ++ "-" ++ toString now
    owner := countryName
    type := ud.type
    coordinates := ud.coordinates
    name := jsOrStr ud.name "Unnamed Unit"
    leader := ud.leader.getD { name := "Unknown", rank := "Unknown" }
    composition := ud.composition.getD []
    strength := ud.strength.getD 0
    currentOrder := jsOrStr ud.initialOrder "Awaiting orders."
    ordersLog := [] }

/-- The AI-initiated DEPLOY_UNIT handler: capacity is checked for the
requested `event.unitType` before the oracle runs; a capacity miss or an
oracle failure is silently dropped (console-logged only). -/
def deployUnitHandler (env : OracleEnv) (ev : WorldEvent) (st : WorkState) :
    WorkState :=
  match ev.countries.head? with
  | none => st
  | some countryName =>
    match st.countries.get countryName, ev.unitType, ev.locationDescription with
    | some country, some uType, some loc =>
      if loc = "" then st
      else
        let currentUnitCount := unitCount st.militaryUnits countryName uType
        let maxUnits := maxUnitsOf st.arsenal countryName uType
        if (currentUnitCount : ℚ) ≥ maxUnits then st
        else
          match env.deployResult st.tick with
          | none => { st with tick := st.tick + 1 }
          | some proposedUnits =>
            match proposedUnits.head? with
            | none => { st with tick := st.tick + 1 }
            | some unitDetails =>
              let newUnit := unitFromProposal country.name uType (env.now st.tick) unitDetails
              { st with
                militaryUnits := st.militaryUnits.insert newUnit.id newUnit
                tick := st.tick + 1 }
    | _, _, _ => st

def manufactureCompleteHandler (ev : WorldEvent) (st : WorkState) : WorkState :=
  match ev.countries.head?, ev.unitType with
  | some countryName, some uType =>
    match st.arsenal.get countryName with
    | some countryArsenal =>
      let unitArsenal := countryArsenal.get uType
      let unitArsenal :=
        match ev.newUnitName with
        | some newUnitName =>
          if newUnitName = "" then unitArsenal
          else { unitArsenal with unitNames := unitArsenal.unitNames ++ [newUnitName] }
        | none => unitArsenal
      let unitArsenal :=
        match ev.maxUnitChange with
        | some maxUnitChange =>
          { unitArsenal with maxUnits := unitArsenal.maxUnits + maxUnitChange }
        | none => unitArsenal
      { st with arsenal := st.arsenal.insert countryName (countryArsenal.set uType unitArsenal) }
    | none => st
  | _, _ => st

def scrapUnitHandler (ev : WorldEvent) (st : WorkState) : WorkState :=
  match ev.unitId with
  | some unitId =>
    if unitId = "" then st
    else if (st.militaryUnits.get unitId).isSome then
      { st with militaryUnits := st.militaryUnits.erase unitId }
    else st
  | none => st

/-- One iteration of the fold: economic effects first, then the per-type
handler (types without a handler fall through). -/
def stepEvent (env : OracleEnv) (st : WorkState) (ev : WorldEvent) : WorkState :=
  let st := { st with countries := processEconomicEffects st.countries ev }
  match ev.type with
  | .ANNEXATION => annexationHandler ev st
  | .COUNTRY_FORMATION => countryFormationHandler ev st
  | .CITY_FOUNDED => cityFoundedHandler env ev st
  | .CITY_RENAMED => cityRenamedHandler ev st
  | .CITY_DESTROYED => cityDestroyedHandler ev st
  | .DEPLOY_UNIT => deployUnitHandler env ev st
  | .MANUFACTURE_COMPLETE => manufactureCompleteHandler ev st
  | .SCRAP_UNIT => scrapUnitHandler ev st
  | _ => st

def initialWork (prev : GameState) : WorkState :=
  { territories := prev.territories
    countries := prev.countries
    cities := prev.cities
    militaryUnits := prev.militaryUnits
    arsenal := prev.arsenal
    tick := 0 }

def commitWork (prev : GameState) (events : List WorldEvent) (stF : WorkState) :
    GameState :=
  { prev with
    territories := stF.territories
    countries := stF.countries
    cities := stF.cities
    militaryUnits := stF.militaryUnits
    arsenal := stF.arsenal
    events := events ++ prev.events
    year := prev.year + 1
    pendingInvitations := prev.pendingInvitations ++
      events.filter (fun e => decide (e.type = .CHAT_INVITATION)) }

/-- App.tsx `handleNewEvents`: the handler fold runs over the REVERSED batch
(`[...events].reverse()`), while the committed log prepends the batch in its
delivered order (`[...events, ...prevState.events]`). -/
def handleNewEvents (env : OracleEnv) (prev : GameState)
    (events : List WorldEvent) : GameState :=
  commitWork prev events (events.reverse.foldl (stepEvent env) (initialWork prev))

/-- The engine as the SPEC describes it (for comparison with
`handleNewEvents`): handlers fold over the batch in delivered order and the
batch is reversed before being prepended to the committed log. -/
def specOrderApply (env : OracleEnv) (prev : GameState)
    (events : List WorldEvent) : GameState :=
  let stF := events.foldl (stepEvent env) (initialWork prev)
  { commitWork prev events stF with events := events.reverse ++ prev.events }

/-! ## World snapshot builder (stateService.ts `generateInitialGameState`)

The geography input is abstracted to the fields the builder reads from each
TopoJSON feature: the feature id (used for US states) and the feature name.
The file `src/services/stateService.ts` in this snapshot is a pre-military
revision of the builder; its caller `App.tsx` (`handleLoadGame`) documents
that the current builder also provides the "full arsenal", so the
military-system fields of the output are modelled from the spec below.
-/

structure RealWorldEntry where
  gdp : ℚ
  population : ℚ
  stability : ℚ
  militaryStrength : ℚ
  militaryTech : ℚ
deriving DecidableEq

def REAL_WORLD_DATA : StrMap RealWorldEntry := [
  ("United States of America", ⟨27360, 333, 75, 100, 10⟩),
  ("China", ⟨17730, 1425, 70, 95, 9⟩),
  ("Germany", ⟨4450, 84, 85, 60, 8⟩),
  ("Japan", ⟨4230, 125, 90, 65, 9⟩),
  ("India", ⟨3730, 1428, 60, 85, 7⟩),
  ("United Kingdom", ⟨3330, 67, 78, 70, 9⟩),
  ("France", ⟨3050, 65, 80, 68, 9⟩),
  ("Russia", ⟨1860, 144, 40, 92, 9⟩),
  ("Canada", ⟨2120, 38, 90, 50, 8⟩),
  ("Brazil", ⟨2130, 215, 55, 62, 6⟩),
  ("Australia", ⟨1690, 26, 92, 55, 8⟩),
  ("Italy", ⟨2190, 59, 70, 63, 8⟩),
  ("South Korea", ⟨1710, 52, 82, 72, 9⟩),
  ("Iran", ⟨413, 88, 30, 75, 6⟩),
  ("Turkey", ⟨1150, 85, 50, 78, 7⟩),
  ("Israel", ⟨525, 9, 65, 76, 9⟩),
  ("Saudi Arabia", ⟨1110, 36, 68, 69, 8⟩),
  ("North Korea", ⟨18, 26, 20, 74, 5⟩),
  ("Ukraine", ⟨160, 43, 25, 80, 7⟩),
  ("Pakistan", ⟨376, 236, 45, 82, 6⟩),
  ("Egypt", ⟨378, 111, 55, 79, 7⟩)]

structure CitySeed where
  name : String
  coordinates : ℚ × ℚ
  territoryId : String
  isCapital : Bool
deriving DecidableEq

def INITIAL_CITIES_1 : List CitySeed := [
  ⟨"Washington D.C.", (-77.0369, 38.9072), "USA-11", true⟩,
  ⟨"New York", (-74.0060, 40.7128), "USA-36", false⟩,
  ⟨"Los Angeles", (-118.2437, 34.0522), "USA-06", false⟩,
  ⟨"Chicago", (-87.6298, 41.8781), "USA-17", false⟩,
  ⟨"Boston", (-71.0589, 42.3601), "USA-25", false⟩,
  ⟨"Mexico City", (-99.1332, 19.4326), "Mexico", true⟩,
  ⟨"Tenochtitlan", (-99.1332, 19.4326), "Mexico", false⟩,
  ⟨"Ottawa", (-75.6972, 45.4215), "Canada", true⟩,
  ⟨"Toronto", (-79.3832, 43.6532), "Canada", false⟩,
  ⟨"Montreal", (-73.5673, 45.5017), "Canada", false⟩,
  ⟨"Havana", (-82.3666, 23.1136), "Cuba", true⟩,
  ⟨"Santo Domingo", (-69.9312, 18.4861), "Dominican Rep.", true⟩,
  ⟨"Guatemala City", (-90.5069, 14.6349), "Guatemala", true⟩,
  ⟨"Belmopan", (-88.759, 17.251), "Belize", true⟩,
  ⟨"San Salvador", (-89.2182, 13.6929), "El Salvador", true⟩,
  ⟨"Tegucigalpa", (-87.2068, 14.0723), "Honduras", true⟩,
  ⟨"Managua", (-86.2362, 12.1150), "Nicaragua", true⟩,
  ⟨"San José", (-84.0907, 9.9281), "Costa Rica", true⟩,
  ⟨"Panama City", (-79.5199, 8.9824), "Panama", true⟩,
  ⟨"Kingston", (-76.7920, 17.9712), "Jamaica", true⟩,
  ⟨"Port-au-Prince", (-72.3375, 18.5945), "Haiti", true⟩,
  ⟨"Nassau", (-77.3554, 25.0479), "The Bahamas", true⟩,
  ⟨"Cusco", (-71.9675, -13.5320), "Peru", false⟩,
  ⟨"Lima", (-77.0428, -12.0464), "Peru", true⟩,
  ⟨"Bogotá", (-74.0721, 4.7110), "Colombia", true⟩,
  ⟨"Brasília", (-47.8825, -15.7942), "Brazil", true⟩,
  ⟨"Rio de Janeiro", (-43.1729, -22.9068), "Brazil", false⟩,
  ⟨"São Paulo", (-46.6333, -23.5505), "Brazil", false⟩,
  ⟨"Buenos Aires", (-58.3816, -34.6037), "Argentina", true⟩,
  ⟨"Santiago", (-70.6693, -33.4489), "Chile", true⟩,
  ⟨"Caracas", (-66.9036, 10.4806), "Venezuela", true⟩,
  ⟨"Quito", (-78.4678, -0.1807), "Ecuador", true⟩,
  ⟨"La Paz", (-68.1193, -16.4897), "Bolivia", true⟩,
  ⟨"Asunción", (-57.5759, -25.2637), "Paraguay", true⟩,
  ⟨"Montevideo", (-56.1645, -34.9011), "Uruguay", true⟩,
  ⟨"Georgetown", (-58.1551, 6.8013), "Guyana", true⟩,
  ⟨"Paramaribo", (-55.2038, 5.8520), "Suriname", true⟩,
  ⟨"London", (-0.1278, 51.5074), "United Kingdom", true⟩,
  ⟨"Paris", (2.3522, 48.8566), "France", true⟩,
  ⟨"Rome", (12.4964, 41.9028), "Italy", true⟩]

def INITIAL_CITIES_2 : List CitySeed := [
  ⟨"Madrid", (-3.7038, 40.4168), "Spain", true⟩,
  ⟨"Lisbon", (-9.1393, 38.7223), "Portugal", true⟩,
  ⟨"Berlin", (13.4050, 52.5200), "Germany", true⟩,
  ⟨"Vienna", (16.3738, 48.2082), "Austria", true⟩,
  ⟨"Prague", (14.4378, 50.0755), "Czechia", true⟩,
  ⟨"Warsaw", (21.0122, 52.2297), "Poland", true⟩,
  ⟨"Budapest", (19.0402, 47.4979), "Hungary", true⟩,
  ⟨"Amsterdam", (4.8952, 52.3702), "Netherlands", true⟩,
  ⟨"Brussels", (4.3517, 50.8503), "Belgium", true⟩,
  ⟨"Geneva", (6.1432, 46.2044), "Switzerland", false⟩,
  ⟨"Bern", (7.4474, 46.9480), "Switzerland", true⟩,
  ⟨"Dublin", (-6.2603, 53.3498), "Ireland", true⟩,
  ⟨"Luxembourg City", (6.1296, 49.6116), "Luxembourg", true⟩,
  ⟨"Bratislava", (17.1077, 48.1486), "Slovakia", true⟩,
  ⟨"Copenhagen", (12.5683, 55.6761), "Denmark", true⟩,
  ⟨"Stockholm", (18.0686, 59.3293), "Sweden", true⟩,
  ⟨"Oslo", (10.7522, 59.9139), "Norway", true⟩,
  ⟨"Helsinki", (24.9384, 60.1699), "Finland", true⟩,
  ⟨"Reykjavik", (-21.8174, 64.1265), "Iceland", true⟩,
  ⟨"Tallinn", (24.7536, 59.4370), "Estonia", true⟩,
  ⟨"Riga", (24.1052, 56.9496), "Latvia", true⟩,
  ⟨"Vilnius", (25.2797, 54.6872), "Lithuania", true⟩,
  ⟨"Moscow", (37.6173, 55.7558), "Russia", true⟩,
  ⟨"St. Petersburg", (30.3351, 59.9343), "Russia", false⟩,
  ⟨"Kyiv", (30.5234, 50.4501), "Ukraine", true⟩,
  ⟨"Minsk", (27.5615, 53.9045), "Belarus", true⟩,
  ⟨"Athens", (23.7275, 37.9838), "Greece", true⟩,
  ⟨"Istanbul", (28.9784, 41.0082), "Turkey", false⟩,
  ⟨"Ankara", (32.8597, 39.9334), "Turkey", true⟩,
  ⟨"Bucharest", (26.1025, 44.4268), "Romania", true⟩,
  ⟨"Belgrade", (20.4489, 44.7866), "Serbia", true⟩,
  ⟨"Sofia", (23.3219, 42.6977), "Bulgaria", true⟩,
  ⟨"Ljubljana", (14.5058, 46.0569), "Slovenia", true⟩,
  ⟨"Zagreb", (15.9819, 45.8150), "Croatia", true⟩,
  ⟨"Sarajevo", (18.4131, 43.8563), "Bosnia and Herz.", true⟩,
  ⟨"Skopje", (21.4254, 41.9981), "North Macedonia", true⟩,
  ⟨"Tirana", (19.8187, 41.3275), "Albania", true⟩,
  ⟨"Pristina", (21.1655, 42.6629), "Kosovo", true⟩,
  ⟨"Jerusalem", (35.2137, 31.7683), "Israel", true⟩,
  ⟨"Mecca", (39.8262, 21.4225), "Saudi Arabia", false⟩]

def INITIAL_CITIES_3 : List CitySeed := [
  ⟨"Riyadh", (46.7386, 24.7742), "Saudi Arabia", true⟩,
  ⟨"Baghdad", (44.3661, 33.3152), "Iraq", true⟩,
  ⟨"Babylon", (44.4208, 32.5422), "Iraq", false⟩,
  ⟨"Damascus", (36.2765, 33.5138), "Syria", true⟩,
  ⟨"Tehran", (51.3890, 35.6892), "Iran", true⟩,
  ⟨"Isfahan", (51.6680, 32.6546), "Iran", false⟩,
  ⟨"Samarkand", (66.9749, 39.6548), "Uzbekistan", false⟩,
  ⟨"Tashkent", (69.2401, 41.2995), "Uzbekistan", true⟩,
  ⟨"Kabul", (69.1723, 34.5553), "Afghanistan", true⟩,
  ⟨"Dubai", (55.2708, 25.2048), "United Arab Emirates", false⟩,
  ⟨"Abu Dhabi", (54.3773, 24.4539), "United Arab Emirates", true⟩,
  ⟨"Amman", (35.9232, 31.9544), "Jordan", true⟩,
  ⟨"Beirut", (35.5018, 33.8938), "Lebanon", true⟩,
  ⟨"Doha", (51.5310, 25.2854), "Qatar", true⟩,
  ⟨"Kuwait City", (47.9774, 29.3759), "Kuwait", true⟩,
  ⟨"Manama", (50.5860, 26.2285), "Bahrain", true⟩,
  ⟨"Muscat", (58.3829, 23.5882), "Oman", true⟩,
  ⟨"Sana\x27a", (44.2064, 15.3694), "Yemen", true⟩,
  ⟨"Baku", (49.8671, 40.4093), "Azerbaijan", true⟩,
  ⟨"Tbilisi", (44.7833, 41.7151), "Georgia", true⟩,
  ⟨"Yerevan", (44.5152, 40.1872), "Armenia", true⟩,
  ⟨"Nur-Sultan", (71.4704, 51.1605), "Kazakhstan", true⟩,
  ⟨"Bishkek", (74.5698, 42.8746), "Kyrgyzstan", true⟩,
  ⟨"Ashgabat", (58.3833, 37.9500), "Turkmenistan", true⟩,
  ⟨"Dushanbe", (68.7864, 38.5598), "Tajikistan", true⟩,
  ⟨"Cairo", (31.2357, 30.0444), "Egypt", true⟩,
  ⟨"Alexandria", (29.9187, 31.2001), "Egypt", false⟩,
  ⟨"Thebes", (32.6396, 25.6872), "Egypt", false⟩,
  ⟨"Carthage", (10.3230, 36.8530), "Tunisia", false⟩,
  ⟨"Tunis", (10.1815, 36.8065), "Tunisia", true⟩,
  ⟨"Marrakech", (-7.9811, 31.6295), "Morocco", false⟩,
  ⟨"Rabat", (-6.8498, 33.9716), "Morocco", true⟩,
  ⟨"Algiers", (3.0588, 36.7764), "Algeria", true⟩,
  ⟨"Tripoli", (13.1913, 32.8872), "Libya", true⟩,
  ⟨"Timbuktu", (-3.0074, 16.7734), "Mali", false⟩,
  ⟨"Bamako", (-7.9865, 12.6392), "Mali", true⟩,
  ⟨"Addis Ababa", (38.7578, 9.0054), "Ethiopia", true⟩,
  ⟨"Axum", (38.7181, 14.1256), "Ethiopia", false⟩,
  ⟨"Great Zimbabwe", (30.9309, -20.2785), "Zimbabwe", false⟩,
  ⟨"Harare", (31.0530, -17.8252), "Zimbabwe", true⟩]

def INITIAL_CITIES_4 : List CitySeed := [
  ⟨"Lagos", (3.3792, 6.5244), "Nigeria", false⟩,
  ⟨"Abuja", (7.4951, 9.0579), "Nigeria", true⟩,
  ⟨"Kinshasa", (15.2663, -4.4419), "Dem. Rep. Congo", true⟩,
  ⟨"Cape Town", (18.4241, -33.9249), "South Africa", false⟩,
  ⟨"Pretoria", (28.1881, -25.7461), "South Africa", true⟩,
  ⟨"Nairobi", (36.8219, -1.2921), "Kenya", true⟩,
  ⟨"Dakar", (-17.4677, 14.7167), "Senegal", true⟩,
  ⟨"Accra", (-0.2057, 5.6037), "Ghana", true⟩,
  ⟨"Abidjan", (-4.0083, 5.3599), "Côte d\x27Ivoire", false⟩,
  ⟨"Khartoum", (32.5599, 15.5007), "Sudan", true⟩,
  ⟨"Juba", (31.5725, 4.8593), "S. Sudan", true⟩,
  ⟨"Kampala", (32.5825, 0.3476), "Uganda", true⟩,
  ⟨"Dar es Salaam", (39.2083, -6.7924), "Tanzania", false⟩,
  ⟨"Dodoma", (35.7516, -6.1630), "Tanzania", true⟩,
  ⟨"Luanda", (13.2343, -8.8399), "Angola", true⟩,
  ⟨"Lusaka", (28.2833, -15.4167), "Zambia", true⟩,
  ⟨"Windhoek", (17.0836, -22.5594), "Namibia", true⟩,
  ⟨"Gaborone", (25.9201, -24.6541), "Botswana", true⟩,
  ⟨"Antananarivo", (47.5214, -18.8792), "Madagascar", true⟩,
  ⟨"Yaoundé", (11.5021, 3.8480), "Cameroon", true⟩,
  ⟨"Beijing", (116.4074, 39.9042), "China", true⟩,
  ⟨"Shanghai", (121.4737, 31.2304), "China", false⟩,
  ⟨"Xi\x27an", (108.9546, 34.2655), "China", false⟩,
  ⟨"Nanjing", (118.7969, 32.0603), "China", false⟩,
  ⟨"Hong Kong", (114.1694, 22.3193), "China", false⟩,
  ⟨"Tokyo", (139.6917, 35.6895), "Japan", true⟩,
  ⟨"Kyoto", (135.7681, 35.0116), "Japan", false⟩,
  ⟨"Seoul", (126.9780, 37.5665), "South Korea", true⟩,
  ⟨"Pyongyang", (125.7625, 39.0392), "North Korea", true⟩,
  ⟨"Taipei", (121.5654, 25.0330), "Taiwan", true⟩,
  ⟨"Ulaanbaatar", (106.9057, 47.8864), "Mongolia", true⟩,
  ⟨"New Delhi", (77.2090, 28.6139), "India", true⟩,
  ⟨"Mumbai", (72.8777, 19.0760), "India", false⟩,
  ⟨"Kolkata", (88.3639, 22.5726), "India", false⟩,
  ⟨"Varanasi", (83.0100, 25.3176), "India", false⟩,
  ⟨"Islamabad", (73.0479, 33.6844), "Pakistan", true⟩,
  ⟨"Mohenjo-daro", (68.1313, 27.3292), "Pakistan", false⟩,
  ⟨"Dhaka", (90.4125, 23.8103), "Bangladesh", true⟩,
  ⟨"Thimphu", (89.6385, 27.4712), "Bhutan", true⟩,
  ⟨"Colombo", (79.8612, 6.9271), "Sri Lanka", true⟩]

def INITIAL_CITIES_5 : List CitySeed := [
  ⟨"Singapore", (103.8198, 1.3521), "Singapore", true⟩,
  ⟨"Bangkok", (100.5018, 13.7563), "Thailand", true⟩,
  ⟨"Ayutthaya", (100.5694, 14.3538), "Thailand", false⟩,
  ⟨"Jakarta", (106.8650, -6.1751), "Indonesia", true⟩,
  ⟨"Hanoi", (105.8342, 21.0278), "Vietnam", true⟩,
  ⟨"Angkor", (103.8670, 13.4125), "Cambodia", false⟩,
  ⟨"Phnom Penh", (104.9282, 11.5564), "Cambodia", true⟩,
  ⟨"Manila", (120.9842, 14.5995), "Philippines", true⟩,
  ⟨"Kathmandu", (85.3240, 27.7172), "Nepal", true⟩,
  ⟨"Naypyidaw", (96.1951, 19.7633), "Myanmar", true⟩,
  ⟨"Vientiane", (102.6331, 17.9757), "Laos", true⟩,
  ⟨"Kuala Lumpur", (101.6869, 3.1390), "Malaysia", true⟩,
  ⟨"Bandar Seri Begawan", (114.9481, 4.9031), "Brunei", true⟩,
  ⟨"Canberra", (149.1300, -35.2809), "Australia", true⟩,
  ⟨"Sydney", (151.2093, -33.8688), "Australia", false⟩,
  ⟨"Melbourne", (144.9631, -37.8136), "Australia", false⟩,
  ⟨"Wellington", (174.7762, -41.2865), "New Zealand", true⟩,
  ⟨"Port Moresby", (147.1797, -9.4431), "Papua New Guinea", true⟩,
  ⟨"Suva", (178.4419, -18.1416), "Fiji", true⟩,
  ⟨"Honiara", (159.9555, -9.4333), "Solomon Is.", true⟩,
  ⟨"Port Vila", (168.3219, -17.7344), "Vanuatu", true⟩]

def INITIAL_CITIES : List CitySeed :=
  INITIAL_CITIES_1 ++ INITIAL_CITIES_2 ++ INITIAL_CITIES_3 ++ INITIAL_CITIES_4 ++ INITIAL_CITIES_5
/-- One TopoJSON feature, reduced to the fields the builder reads. -/
structure GeoFeature where
  geoId : String
  name : String
deriving DecidableEq

inductive GeoSource where
  | world
  | us
deriving DecidableEq

/-- The geography provider's snapshot (world atlas countries + US states). -/
structure MapData where
  worldFeatures : List GeoFeature
  usFeatures : List GeoFeature
deriving DecidableEq

/-- Baseline statistics of one country at snapshot time: the real-world
table, with a deterministic hash fallback for unlisted names. -/
def mkInitialCountry (name : String) : Country :=
  let realData := REAL_WORLD_DATA.get name
  let hash := simpleHash name
  { name := name
    color := stringToColor name
    gdp := match realData with
      | some d => d.gdp
      | none => 10 + (hash % 200 : Nat)
    population := match realData with
      | some d => d.population
      | none => 1 + (hash % 50 : Nat)
    stability := match realData with
      | some d => d.stability
      | none => 30 + (hash % 60 : Nat)
    resources := []
    militaryStrength := match realData with
      | some d => d.militaryStrength
      | none => 10 + (hash % 40 : Nat)
    militaryTech := match realData with
      | some d => d.militaryTech
      | none => 1 + (hash % 5 : Nat) }

/-- One `allGeographies.forEach` iteration: derive the territory triple,
special-case Antarctica, and instantiate the parent country on first sight. -/
def buildGeoStep (acc : StrMap Territory × StrMap Country)
    (g : GeoFeature × GeoSource) : StrMap Territory × StrMap Country :=
  let (territories, countries) := acc
  let (geo, src) := g
  let territoryId := match src with
    | .us => "USA-" ++ geo.geoId
    | .world => geo.name
  let territoryName := geo.name
  let parentCountryName := match src with
    | .us => "United States of America"
    | .world => geo.name
  if parentCountryName = "Antarctica" then
    (territories.insert territoryId
      { id := territoryId, name := territoryName
        parentCountryName := "Unclaimed", owner := "Unclaimed" },
     countries)
  else
    let territories := territories.insert territoryId
      { id := territoryId, name := territoryName
        parentCountryName := parentCountryName, owner := parentCountryName }
    if (countries.get parentCountryName).isNone ∧ parentCountryName ≠ "" ∧
        parentCountryName ≠ "Unclaimed" then
      (territories, countries.insert parentCountryName (mkInitialCountry parentCountryName))
    else
      (territories, countries)

/-- Modelled from the spec: the small positive per-type deployment ceiling of
the zero-initialized arsenal (the constant lives in the current stateService
revision, absent from this snapshot; the spec fixes only that it is a small
positive default with an empty unit-name catalog). -/
def DEFAULT_MAX_UNITS : ℚ := 5

/-- Modelled from the spec: the zero-initialized per-country arsenal row,
all three unit types present, `maxUnits` at the small positive default and
`unitNames` empty. -/
def defaultCountryArsenal : CountryArsenal :=
  { army := { maxUnits := DEFAULT_MAX_UNITS, unitNames := [] }
    navy := { maxUnits := DEFAULT_MAX_UNITS, unitNames := [] }
    airForce := { maxUnits := DEFAULT_MAX_UNITS, unitNames := [] } }

/-- stateService.ts `generateInitialGameState`, with the military-system
fields of the output (empty `militaryUnits`, one `defaultCountryArsenal` row
per built country) and the empty `pendingInvitations` list modelled from the
spec (§4.1), since only the pre-military revision of the builder is in this
snapshot. -/
def generateInitialGameState (mapData : MapData) : GameState :=
  let allGeographies :=
    mapData.worldFeatures.map (fun f => (f, GeoSource.world)) ++
    mapData.usFeatures.map (fun f => (f, GeoSource.us))
  let acc := allGeographies.foldl buildGeoStep ([], [])
  let cities : List City := INITIAL_CITIES.map (fun city =>
    { id := city.name ++ "-" ++ city.territoryId
      name := city.name
      coordinates := city.coordinates
      territoryId := city.territoryId
      isCapital := city.isCapital })
  { territories := acc.1
    countries := acc.2
    cities := cities
    playerCountryName := none
    year := 2024
    events := []
    chats := []
    pendingInvitations := []
    militaryUnits := []
    arsenal := acc.2.map (fun p => (p.1, defaultCountryArsenal)) }


/-! ## Military unit lifecycle manager (App.tsx) -/

inductive ToastType where
  | success
  | error
  | info
deriving DecidableEq

structure Toast where
  message : String
  ttype : ToastType
deriving DecidableEq

/-- Build the `MilitaryUnit` the player deploy path stores for the
`index`-th oracle-proposed shell. -/
def mkPlayerUnit (countryName : String) (now : Nat) (ud : ProposedUnit)
    (index : Nat) : MilitaryUnit :=
  { id := countryName ++ "-" ++ ud.type.str ++ "-" ++ toString now ++ "-" ++ toString index
    owner := countryName
    type := ud.type
    coordinates := ud.coordinates
    name := jsOrStr ud.name "Unnamed Unit"
    leader := ud.leader.getD { name := "Unknown", rank := "Unknown" }
    composition := ud.composition.getD []
    strength := ud.strength.getD 0
    currentOrder := jsOrStr ud.initialOrder "Awaiting orders."
    ordersLog := [] }

/-- App.tsx `handleDeployUnit` (player-initiated): validate every proposed
type against the arsenal ceiling before any mutation; any failure (oracle
throw, empty proposal, missing arsenal row, capacity miss) leaves the state
untouched and surfaces an error toast.  The numeric interpolations of the
source's toast messages are elided; the branch and toast type are kept. -/
def handleDeployUnit (prev : GameState) (proposed : Option (List ProposedUnit))
    (now : Nat) : GameState × List Toast :=
  match prev.playerCountryName with
  | none => (prev, [])
  | some playerName =>
    if playerName = "" then (prev, [])
    else
      match prev.countries.get playerName with
      | none => (prev, [])
      | some country =>
        match proposed with
        | none => (prev, [{ message := "Deployment Failed: An unknown error occurred.", ttype := .error }])
        | some proposedUnits =>
          if proposedUnits.length = 0 then
            (prev, [{ message := "Deployment failed: The AI could not create units based on your brief.", ttype := .error }])
          else
            let currentCount := fun t => unitCount prev.militaryUnits country.name t
            let proposedCount := fun t =>
              (proposedUnits.filter (fun u => decide (u.type = t))).length
            let typeKeys := proposedUnits.foldl (fun acc u => jsSetAdd acc u.type) []
            match prev.arsenal.get country.name with
            | none => (prev, [{ message := "Deployment Failed: An unknown error occurred.", ttype := .error }])
            | some countryArsenal =>
              match typeKeys.find? (fun t =>
                  decide (((currentCount t : ℚ) + (proposedCount t : ℚ)) > (countryArsenal.get t).maxUnits)) with
              | some _ =>
                (prev, [{ message := "Deployment failed: insufficient slots available.", ttype := .error }])
              | none =>
                let newUnits := proposedUnits.enum.map
                  (fun p => mkPlayerUnit country.name now p.2 p.1)
                ({ prev with militaryUnits :=
                    newUnits.foldl (fun m u => m.insert u.id u) prev.militaryUnits },
                 [{ message := "unit(s) deployed successfully.", ttype := .success }])

inductive ActionType where
  | RELOCATE
  | RETREAT
  | SPLIT
  | MERGE
  | GENERAL_ORDER
deriving DecidableEq

/-- `PartialMilitaryUnit`: the oracle-specified remainder of a unit. -/
structure PartialUnit where
  name : String
  leader : UnitLeader
  composition : List UnitComposition
  strength : ℚ
deriving DecidableEq

structure UnitActionOutcome where
  actionType : ActionType
  outcomeText : String
  newCoordinates : Option (ℚ × ℚ)
  newUnitsToCreate : Option (List PartialUnit)
  mergedUnit : Option PartialUnit
  unitIdsToRemove : Option (List String)
deriving DecidableEq

/-- App.tsx `handleUnitOrder.updateLog`: prepend the new entry and keep the
ten most recent (`[entry, ...ordersLog].slice(0, 10)`). -/
def updateLog (yr : Int) (targetUnit : MilitaryUnit)
    (newOrder newOutcome : String) : MilitaryUnit :=
  { targetUnit with
    currentOrder := newOrder
    ordersLog :=
      (({ year := yr, order := newOrder, outcome := newOutcome } : OrdersLogEntry)
        :: targetUnit.ordersLog).take 10 }

/-- App.tsx `handleUnitOrder`: the oracle-classified outcome is an input;
the function is the pure state update of the `setGameState` call. -/
def handleUnitOrder (prev : GameState) (unitId : String) (order : String)
    (outcome : UnitActionOutcome) (now : Nat) : GameState :=
  match prev.militaryUnits.get unitId with
  | none => prev
  | some unit =>
    match outcome.actionType with
    | .RELOCATE | .RETREAT =>
      match outcome.newCoordinates with
      | some newCoordinates =>
        let updatedUnit := { unit with coordinates := newCoordinates }
        let logged := updateLog prev.year updatedUnit order outcome.outcomeText
        { prev with militaryUnits := prev.militaryUnits.insert unitId logged }
      | none => prev
    | .SPLIT =>
      match outcome.unitIdsToRemove, outcome.newUnitsToCreate with
      | some unitIdsToRemove, some newUnitsToCreate =>
        if unitId ∈ unitIdsToRemove then
          let m := prev.militaryUnits.erase unitId
          { prev with militaryUnits := newUnitsToCreate.enum.foldl (fun m p =>
              let newUnit : MilitaryUnit :=
                { name := p.2.name, leader := p.2.leader
                  composition := p.2.composition, strength := p.2.strength
                  id := unit.owner ++ "-split-" ++ toString now ++ "-" ++ toString p.1
                  owner := unit.owner, type := unit.type
                  coordinates := unit.coordinates
                  currentOrder := "Awaiting orders."
                  ordersLog := [{ year := prev.year, order := "Formed from split command",
                                  outcome := "Split from " ++ unit.name }] }
              m.insert newUnit.id newUnit) m }
        else prev
      | _, _ => prev
    | .MERGE =>
      match outcome.unitIdsToRemove, outcome.mergedUnit with
      | some unitIdsToRemove, some mergedUnitData =>
        let m := unitIdsToRemove.foldl (fun m i => m.erase i) prev.militaryUnits
        let newMergedUnit : MilitaryUnit :=
          { name := mergedUnitData.name, leader := mergedUnitData.leader
            composition := mergedUnitData.composition, strength := mergedUnitData.strength
            id := unit.owner ++ "-merged-" ++ toString now
            owner := unit.owner, type := unit.type
            coordinates := unit.coordinates
            currentOrder := order
            ordersLog := [{ year := prev.year, order := order, outcome := outcome.outcomeText }] }
        { prev with militaryUnits := m.insert newMergedUnit.id newMergedUnit }
      | _, _ => prev
    | .GENERAL_ORDER =>
      match prev.militaryUnits.get unitId with
      | some u =>
        let logged := updateLog prev.year u order outcome.outcomeText
        { prev with militaryUnits := prev.militaryUnits.insert unitId logged }
      | none => prev

/-- Iterated general orders to one unit (each resolved by the oracle to a
GENERAL_ORDER outcome with the given narrative). -/
def issueGeneralOrders (s : GameState) (unitId : String)
    (orders : List (String × String)) : GameState :=
  orders.foldl (fun s p =>
    handleUnitOrder s unitId p.1
      { actionType := .GENERAL_ORDER, outcomeText := p.2
        newCoordinates := none, newUnitsToCreate := none
        mergedUnit := none, unitIdsToRemove := none } 0) s

/-! ## Diplomatic session manager (App.tsx) -/

structure ChatTurnResult where
  nextSpeaker : String
  message : String
deriving DecidableEq

/-- App.tsx `updateChat`: apply a partial update to one chat, no-op when the
chat id is unknown. -/
def updateChat (s : GameState) (chatId : String)
    (f : DiplomaticChat → DiplomaticChat) : GameState :=
  match s.chats.get chatId with
  | none => s
  | some currentChat => { s with chats := s.chats.insert chatId (f currentChat) }

/-- The synchronous prefix of App.tsx `advanceChatTurn`, up to the await:
set the chat's speaker to the deciding sentinel (null). -/
def advanceChatTurnStart (s : GameState) (chatId : String) : GameState :=
  match s.playerCountryName with
  | none => s
  | some p =>
    if p = "" then s
    else
      match s.chats.get chatId with
      | none => s
      | some _ => updateChat s chatId (fun c => { c with currentSpeaker := none })

/-- The continuation of App.tsx `advanceChatTurn` after the oracle resolves:
re-read the chat and abort (discarding the oracle result) unless the speaker
is still the sentinel it set before suspending. -/
def advanceChatTurnResolve (s : GameState) (chatId : String)
    (result : ChatTurnResult) : GameState :=
  match s.chats.get chatId with
  | none => s
  | some chatAfterApi =>
    if chatAfterApi.currentSpeaker ≠ none then s
    else
      updateChat s chatId (fun current =>
        { current with
          messages :=
            if result.message ≠ "" then
              current.messages ++ [{ sender := result.nextSpeaker, text := result.message }]
            else current.messages
          currentSpeaker := some result.nextSpeaker })

/-- App.tsx `handleInterrupt`: force the player as the chat's speaker. -/
def handleInterrupt (s : GameState) (chatId : String) : GameState :=
  match s.playerCountryName with
  | none => s
  | some p =>
    if p = "" then s
    else updateChat s chatId (fun c => { c with currentSpeaker := some p })

/-! ## Concrete fixtures used by witnesses and counterexamples -/

def envTriv : OracleEnv := { now := fun _ => 0, deployResult := fun _ => none }

def terrT1 : Territory :=
  { id := "T1", name := "T1", parentCountryName := "X", owner := "X" }

def stateC1 : GameState :=
  { territories := [("T1", terrT1)], countries := [], cities := []
    playerCountryName := none, year := 2024, events := [], chats := []
    pendingInvitations := [], militaryUnits := [], arsenal := [] }

def evAnnexAX : WorldEvent :=
  { blankEvent with
    type := .ANNEXATION
    countries := ["A", "X"]
    description := "A annexes X"
    date := "2024-03-01" }

def evAnnexBA : WorldEvent :=
  { blankEvent with
    type := .ANNEXATION
    countries := ["B", "A"]
    description := "B annexes A"
    date := "2024-09-01" }

def countryW : Country :=
  { name := "Wadiya", color := "#123456", gdp := 100, population := 50
    stability := 50, resources := ["Oil"], militaryStrength := 10
    militaryTech := 3 }

def effW : EconomicEffect :=
  { country := "Wadiya", gdpChange := some (-200), populationChange := some (-100)
    stabilityChange := some 80, militaryStrengthChange := some (-15)
    newResources := some ["Gas", "Oil"] }

def terrTexas : Territory :=
  { id := "Texas", name := "Texas"
    parentCountryName := "United States of America", owner := "USA" }

def terrCal : Territory :=
  { id := "California", name := "California"
    parentCountryName := "United States of America", owner := "USA" }

def workA : WorkState :=
  { territories := [("Texas", terrTexas), ("California", terrCal)]
    countries := [], cities := [], militaryUnits := [], arsenal := [], tick := 0 }

def evTexas : WorldEvent :=
  { blankEvent with
    type := .ANNEXATION
    countries := ["Republic of Texas", "USA"]
    territoryNames := some ["Texas"] }

def evFullConquest : WorldEvent :=
  { blankEvent with
    type := .ANNEXATION
    countries := ["Republic of Texas", "USA"] }

def evZion : WorldEvent :=
  { blankEvent with
    type := .COUNTRY_FORMATION
    newCountryName := some "Zion"
    territoryNames := some ["Texas"] }

def mdFrance : MapData :=
  { worldFeatures := [{ geoId := "250", name := "France" }], usFeatures := [] }

def countryAtlantis : Country :=
  { name := "Atlantis", color := "#aabbcc", gdp := 100, population := 10
    stability := 50, resources := [], militaryStrength := 10, militaryTech := 5 }

def armyUnitA : MilitaryUnit :=
  { id := "Atlantis-ARMY-0", owner := "Atlantis", type := .ARMY
    name := "First Army", coordinates := (0, 0)
    leader := { name := "Gen", rank := "General" }, composition := []
    strength := 10, currentOrder := "Awaiting orders.", ordersLog := [] }

def arsenalAtlantis : CountryArsenal :=
  { army := { maxUnits := 1, unitNames := [] }
    navy := { maxUnits := 5, unitNames := [] }
    airForce := { maxUnits := 5, unitNames := [] } }

def workC7 : WorkState :=
  { territories := [], countries := [("Atlantis", countryAtlantis)]
    cities := [], militaryUnits := [("Atlantis-ARMY-0", armyUnitA)]
    arsenal := [("Atlantis", arsenalAtlantis)], tick := 0 }

def evDeployNavy : WorldEvent :=
  { blankEvent with
    type := .DEPLOY_UNIT
    countries := ["Atlantis"]
    unitType := some .NAVY
    locationDescription := some "harbor" }

def proposedRogueArmy : ProposedUnit :=
  { type := .ARMY, coordinates := (3, 4), name := some "Rogue Army"
    leader := none, composition := none, strength := some 7, initialOrder := none }

def envRogue : OracleEnv :=
  { now := fun _ => 7, deployResult := fun _ => some [proposedRogueArmy] }

def proposedNavy : ProposedUnit :=
  { type := .NAVY, coordinates := (1, 2), name := some "First Fleet"
    leader := none, composition := none, strength := some 5, initialOrder := none }

def envNavy : OracleEnv :=
  { now := fun _ => 9, deployResult := fun _ => some [proposedNavy] }

def playerState : GameState :=
  { territories := [], countries := [("Atlantis", countryAtlantis)]
    cities := [], playerCountryName := some "Atlantis", year := 2024
    events := [], chats := [], pendingInvitations := []
    militaryUnits := [("Atlantis-ARMY-0", armyUnitA)]
    arsenal := [("Atlantis", arsenalAtlantis)] }

def unitU1 : MilitaryUnit :=
  { id := "u1", owner := "Atlantis", type := .ARMY, name := "U1"
    coordinates := (0, 0), leader := { name := "L", rank := "Col" }
    composition := [], strength := 1, currentOrder := "Awaiting orders."
    ordersLog := [] }

def unitState : GameState :=
  { territories := [], countries := [("Atlantis", countryAtlantis)]
    cities := [], playerCountryName := some "Atlantis", year := 2024
    events := [], chats := [], pendingInvitations := []
    militaryUnits := [("u1", unitU1)], arsenal := [] }

def ordersTen : List (String × String) :=
  [("o1", "r1"), ("o2", "r2"), ("o3", "r3"), ("o4", "r4"), ("o5", "r5"),
   ("o6", "r6"), ("o7", "r7"), ("o8", "r8"), ("o9", "r9"), ("o10", "r10"),
   ("o11", "r11")]

def cityBerlin : City :=
  { id := "Berlin-Germany", name := "Berlin", coordinates := (13.405, 52.52)
    territoryId := "Germany", isCapital := true }

def workB : WorkState :=
  { territories := [], countries := [], cities := [cityBerlin]
    militaryUnits := [], arsenal := [], tick := 0 }

def evRenameBerlin : WorldEvent :=
  { blankEvent with
    type := .CITY_RENAMED
    cityName := some "Berlin"
    newCityName := some "New Berlin" }

def chatC : DiplomaticChat :=
  { id := "chat_1", participants := ["Atlantis", "Borduria"]
    messages := [], topic := "peace talks", currentSpeaker := some "Atlantis" }

def chatState : GameState :=
  { territories := [], countries := [("Atlantis", countryAtlantis)]
    cities := [], playerCountryName := some "Atlantis", year := 2024
    events := [], chats := [("chat_1", chatC)], pendingInvitations := []
    militaryUnits := [], arsenal := [] }

def turnResultB : ChatTurnResult :=
  { nextSpeaker := "Borduria", message := "We propose a truce." }

/-! ## Auxiliary lemmas on `StrMap` -/

theorem StrMap.get_insert_self {α : Type} (m : StrMap α) (k : String) (v : α) :
    (m.insert k v).get k = some v := by
  induction m with
  | nil => simp [StrMap.insert, StrMap.get]
  | cons p ps ih =>
    by_cases h : p.1 = k
    · simp [StrMap.insert, h, StrMap.get]
    · simp [StrMap.insert, h, StrMap.get, ih]

theorem StrMap.get_insert_ne {α : Type} (m : StrMap α) {k j : String} (v : α)
    (h : k ≠ j) : (m.insert k v).get j = m.get j := by
  induction m with
  | nil => simp [StrMap.insert, StrMap.get, h]
  | cons p ps ih =>
    by_cases hp : p.1 = k
    · simp [StrMap.insert, hp, StrMap.get, h]
    · simp [StrMap.insert, hp, StrMap.get, ih]

theorem StrMap.length_le_insert {α : Type} (m : StrMap α) (k : String) (v : α) :
    m.length ≤ (m.insert k v).length := by
  induction m with
  | nil => simp [StrMap.insert]
  | cons p ps ih =>
    by_cases h : p.1 = k
    · simp [StrMap.insert, h]
    · simpa [StrMap.insert, h] using ih

theorem StrMap.mem_insert {α : Type} {m : StrMap α} {k : String} {v : α}
    {p : String × α} (h : p ∈ m.insert k v) : p = (k, v) ∨ p ∈ m := by
  induction m with
  | nil => simpa [StrMap.insert] using h
  | cons q qs ih =>
    by_cases hq : q.1 = k
    · simp only [StrMap.insert, hq, if_pos] at h
      rcases List.mem_cons.mp h with h | h
      · exact Or.inl h
      · exact Or.inr (List.mem_cons_of_mem _ h)
    · simp only [StrMap.insert, hq, if_neg, not_false_iff] at h
      rcases List.mem_cons.mp h with h | h
      · exact Or.inr (h ▸ List.mem_cons_self _ _)
      · rcases ih h with h | h
        · exact Or.inl h
        · exact Or.inr (List.mem_cons_of_mem _ h)

theorem StrMap.mem_of_get_some {α : Type} {m : StrMap α} {k : String} {v : α}
    (h : m.get k = some v) : (k, v) ∈ m := by
  induction m with
  | nil => simp [StrMap.get] at h
  | cons p ps ih =>
    by_cases hp : p.1 = k
    · simp only [StrMap.get, hp, if_pos] at h
      have : p = (k, v) := by
        cases p
        simp_all
      exact this ▸ List.mem_cons_self _ _
    · simp only [StrMap.get, hp, if_neg, not_false_iff] at h
      exact List.mem_cons_of_mem _ (ih h)

theorem StrMap.get_eq_none_iff {α : Type} (m : StrMap α) (k : String) :
    m.get k = none ↔ k ∉ m.keys := by
  induction m with
  | nil => simp [StrMap.get, StrMap.keys]
  | cons p ps ih =>
    by_cases hp : p.1 = k
    · simp [StrMap.get, StrMap.keys, hp]
    · simp [StrMap.get, StrMap.keys, hp, ih, Ne.symm hp]

theorem StrMap.get_isSome_iff {α : Type} (m : StrMap α) (k : String) :
    (m.get k).isSome ↔ k ∈ m.keys := by
  rcases h : m.get k with _ | v
  · simpa [h] using (StrMap.get_eq_none_iff m k).mp h
  · simp only [Option.isSome_some, true_iff]
    by_contra hk
    rw [(StrMap.get_eq_none_iff m k).mpr hk] at h
    exact Option.noConfusion h

theorem StrMap.mem_keys_of_mem {α : Type} {m : StrMap α} {p : String × α}
    (h : p ∈ m) : p.1 ∈ m.keys :=
  List.mem_map_of_mem Prod.fst h

theorem StrMap.get_of_mem_nodup {α : Type} {m : StrMap α} {k : String} {v : α}
    (hnd : m.KeysNodup) (h : (k, v) ∈ m) : m.get k = some v := by
  induction m with
  | nil => simp at h
  | cons p ps ih =>
    simp only [StrMap.KeysNodup, StrMap.keys, List.map_cons, List.nodup_cons] at hnd
    rcases List.mem_cons.mp h with h | h
    · simp [StrMap.get, ← h]
    · have hk : k ∈ List.map Prod.fst ps := List.mem_map_of_mem Prod.fst h
      have hp : p.1 ≠ k := by
        intro hpk
        exact hnd.1 (hpk ▸ hk)
      have hnd2 : StrMap.KeysNodup ps := hnd.2
      simp [StrMap.get, hp, ih hnd2 h]

theorem StrMap.keys_insert_of_mem {α : Type} {m : StrMap α} {k : String}
    (v : α) (h : k ∈ m.keys) : (m.insert k v).keys = m.keys := by
  simp only [StrMap.keys] at h ⊢
  induction m with
  | nil => simp at h
  | cons p ps ih =>
    by_cases hp : p.1 = k
    · simp [StrMap.insert, hp]
    · simp only [List.map_cons, List.mem_cons] at h
      rcases h with h | h
      · exact absurd h.symm hp
      · simp [StrMap.insert, hp, ih h]

theorem StrMap.keys_insert_of_not_mem {α : Type} {m : StrMap α} {k : String}
    (v : α) (h : k ∉ m.keys) : (m.insert k v).keys = m.keys ++ [k] := by
  simp only [StrMap.keys] at h ⊢
  induction m with
  | nil => simp [StrMap.insert]
  | cons p ps ih =>
    simp only [List.map_cons, List.mem_cons, not_or] at h
    have hp : p.1 ≠ k := fun hpk => h.1 hpk.symm
    simp [StrMap.insert, hp, ih h.2]

theorem StrMap.KeysNodup.insert {α : Type} {m : StrMap α} {k : String} {v : α}
    (h : m.KeysNodup) : (m.insert k v).KeysNodup := by
  by_cases hk : k ∈ StrMap.keys m
  · unfold StrMap.KeysNodup
    rw [StrMap.keys_insert_of_mem v hk]
    exact h
  · unfold StrMap.KeysNodup
    rw [StrMap.keys_insert_of_not_mem v hk]
    simp only [StrMap.keys] at h hk
    simpa [List.nodup_append] using ⟨h, hk⟩

theorem StrMap.values_cons {α : Type} (p : String × α) (ps : StrMap α) :
    StrMap.values (p :: ps) = p.2 :: StrMap.values ps := rfl

theorem StrMap.filter_values_insert_le {α : Type} (m : StrMap α) (k : String)
    (v : α) (f : α → Bool) :
    ((m.insert k v).values.filter f).length ≤
      (m.values.filter f).length + (if f v then 1 else 0) := by
  induction m with
  | nil =>
    simp only [StrMap.insert, StrMap.values, List.map_cons, List.map_nil]
    cases hf : f v <;> simp [List.filter, hf]
  | cons p ps ih =>
    by_cases hp : p.1 = k
    · simp only [StrMap.insert, hp, if_pos, StrMap.values_cons]
      cases hf : f v <;> cases hfp : f p.2 <;>
        simp [List.filter_cons, hf, hfp] <;> omega
    · simp only [StrMap.insert, hp, if_neg, not_false_iff, StrMap.values_cons]
      cases hfp : f p.2 <;> simp [List.filter_cons, hfp] <;> omega

theorem StrMap.values_map_fst_eq_keys {α : Type} (m : StrMap α)
    (f : α → String) (h : ∀ p ∈ m, f p.2 = p.1) : m.values.map f = m.keys := by
  simp only [StrMap.values, StrMap.keys, List.map_map]
  exact List.map_congr_left h

theorem StrMap.exists_key_of_mem_values {α : Type} {m : StrMap α} {v : α}
    (h : v ∈ m.values) : ∃ k, (k, v) ∈ m := by
  rcases List.mem_map.mp h with ⟨p, hp, hv⟩
  exact ⟨p.1, by cases p; simp_all⟩

/-- Fold a list of values into the map, keying each by `g`: when the keys of
the list are distinct, lookup afterwards is the first list match, else the
original lookup. -/
theorem StrMap.foldl_insert_get {α β : Type} (g : β → String) (f : β → α) :
    ∀ (l : List β) (m : StrMap α) (k : String), (l.map g).Nodup →
    (l.foldl (fun m t => m.insert (g t) (f t)) m).get k =
      (match l.find? (fun t => decide (g t = k)) with
        | some t => some (f t)
        | none => m.get k) := by
  intro l
  induction l with
  | nil => intro m k _; rfl
  | cons t ts ih =>
    intro m k hnd
    have hnd2 : (ts.map g).Nodup := (List.nodup_cons.mp (by simpa using hnd)).2
    have hnotin : g t ∉ ts.map g := (List.nodup_cons.mp (by simpa using hnd)).1
    by_cases hk : g t = k
    · have hfind : (t :: ts).find? (fun t => decide (g t = k)) = some t := by
        simp [List.find?_cons, hk]
      rw [hfind]
      simp only [List.foldl_cons]
      rw [ih (m.insert (g t) (f t)) k hnd2]
      have : ts.find? (fun t => decide (g t = k)) = none := by
        rw [List.find?_eq_none]
        intro x hx
        simp only [decide_eq_true_eq]
        intro hgx
        apply hnotin
        have hgg : g t = g x := by rw [hk, ← hgx]
        rw [hgg]
        exact List.mem_map_of_mem g hx
      rw [this, hk, StrMap.get_insert_self]
    · simp only [List.foldl_cons, List.find?_cons]
      have : (decide (g t = k)) = false := by simpa using hk
      rw [this]
      rw [ih (m.insert (g t) (f t)) k hnd2]
      cases ts.find? (fun t => decide (g t = k)) with
      | none => simp [StrMap.get_insert_ne m (f t) hk]
      | some x => rfl

/-- Folding inserts of fresh units bounds the number of matching values by
the old count plus the matching insertions. -/
theorem StrMap.filter_values_foldl_insert_le {α β : Type} (g : β → String)
    (f : β → α) (pred : α → Bool) :
    ∀ (l : List β) (m : StrMap α),
    (((l.foldl (fun m t => m.insert (g t) (f t)) m).values.filter pred).length) ≤
      ((m.values.filter pred).length) + (l.filter (fun t => pred (f t))).length := by
  intro l
  induction l with
  | nil => intro m; simp
  | cons t ts ih =>
    intro m
    simp only [List.foldl_cons]
    calc (((ts.foldl (fun m t => m.insert (g t) (f t)) (m.insert (g t) (f t))).values.filter pred).length)
        ≤ (((m.insert (g t) (f t)).values.filter pred).length) +
            (ts.filter (fun t => pred (f t))).length := ih _
      _ ≤ ((m.values.filter pred).length + (if pred (f t) then 1 else 0)) +
            (ts.filter (fun t => pred (f t))).length := by
            exact Nat.add_le_add_right (StrMap.filter_values_insert_le m (g t) (f t) pred) _
      _ ≤ (m.values.filter pred).length + ((t :: ts).filter (fun t => pred (f t))).length := by
            cases h : pred (f t) <;> simp [List.filter_cons, h] <;> omega

/-- Generic fold monotonicity for a natural measure. -/
theorem foldl_nat_le {β γ : Type} (P : β → Nat) (step : β → γ → β)
    (h : ∀ b c, P b ≤ P (step b c)) :
    ∀ (l : List γ) (b : β), P b ≤ P (l.foldl step b) := by
  intro l
  induction l with
  | nil => intro b; simp
  | cons c cs ih =>
    intro b
    calc P b ≤ P (step b c) := h b c
      _ ≤ P (cs.foldl step (step b c)) := ih _

/-! ## Territory map invariants and the reassignment loops -/

/-- Well-formedness of the territory object: unique keys, and each value's
`id` equals its key (true of every state the app builds). -/
def TerrWf (ts : StrMap Territory) : Prop :=
  ts.KeysNodup ∧ ∀ p ∈ ts, (p.2 : Territory).id = p.1

instance (ts : StrMap Territory) : Decidable (TerrWf ts) := by
  unfold TerrWf
  infer_instance

theorem find?_key_eq_some {β : Type} (g : β → String) {l : List β} {k : String}
    (hnd : (l.map g).Nodup) {x : β} (hx : x ∈ l) (hk : g x = k) :
    l.find? (fun y => decide (g y = k)) = some x := by
  induction l with
  | nil => simp at hx
  | cons y ys ih =>
    simp only [List.map_cons, List.nodup_cons] at hnd
    by_cases hy : g y = k
    · have hxy : x = y := by
        rcases List.mem_cons.mp hx with h | h
        · exact h
        · exfalso
          exact hnd.1 (by rw [hy, ← hk]; exact List.mem_map_of_mem g h)
      simp [List.find?_cons, hy, hxy]
    · have hx2 : x ∈ ys := by
        rcases List.mem_cons.mp hx with h | h
        · exact absurd (h ▸ hk) hy
        · exact h
      have : (decide (g y = k)) = false := by simpa using hy
      simp [List.find?_cons, this, ih hnd.2 hx2]

theorem TerrWf.get_id {ts : StrMap Territory} {k : String} {t : Territory}
    (wf : TerrWf ts) (h : ts.get k = some t) : t.id = k :=
  wf.2 (k, t) (StrMap.mem_of_get_some h)

theorem TerrWf.values_map_id {ts : StrMap Territory} (wf : TerrWf ts) :
    ts.values.map Territory.id = ts.keys :=
  StrMap.values_map_fst_eq_keys ts Territory.id wf.2

theorem TerrWf.insert_owner {ts : StrMap Territory} {k : String} {v : Territory}
    (wf : TerrWf ts) (hid : v.id = k) (hk : k ∈ StrMap.keys ts) :
    TerrWf (ts.insert k v) := by
  refine ⟨?_, ?_⟩
  · unfold StrMap.KeysNodup
    rw [StrMap.keys_insert_of_mem v hk]
    exact wf.1
  · intro p hp
    rcases StrMap.mem_insert hp with h | h
    · rw [h]
      exact hid
    · exact wf.2 p h

theorem TerrWf.mem_values_key {ts : StrMap Territory} {t : Territory}
    (wf : TerrWf ts) (h : t ∈ ts.values) : (t.id, t) ∈ ts := by
  rcases StrMap.exists_key_of_mem_values h with ⟨k0, hk0⟩
  have : t.id = k0 := wf.2 (k0, t) hk0
  rw [this]
  exact hk0

/-- Characterization of the named-territory reassignment loop: keys and
well-formedness are preserved, absent keys stay absent, and each present
territory keeps its identity fields while its owner either survives
untouched or becomes the new owner of one of the listed names. -/
theorem reassignNamed_props (a : String) :
    ∀ (names : List String) (ts : StrMap Territory), TerrWf ts →
    TerrWf (reassignNamed a ts names) ∧
    StrMap.keys (reassignNamed a ts names) = StrMap.keys ts ∧
    (∀ k, ts.get k = none → (reassignNamed a ts names).get k = none) ∧
    (∀ k t, ts.get k = some t →
      ∃ t2, (reassignNamed a ts names).get k = some t2 ∧
        t2.id = t.id ∧ t2.name = t.name ∧
        t2.parentCountryName = t.parentCountryName ∧
        (t2 = t ∨ (t2.owner = a ∧ t.name ∈ names))) := by
  intro names
  induction names with
  | nil =>
    intro ts wf
    exact ⟨wf, rfl, fun k h => h, fun k t h => ⟨t, h, rfl, rfl, rfl, Or.inl rfl⟩⟩
  | cons n rest ih =>
    intro ts wf
    rcases hf : ts.values.find? (fun t => decide (t.name = n)) with _ | t0
    · have hstep : reassignNamed a ts (n :: rest) = reassignNamed a ts rest := by
        simp only [reassignNamed, List.foldl_cons, hf]
      rw [hstep]
      obtain ⟨w1, w2, w3, w4⟩ := ih ts wf
      refine ⟨w1, w2, w3, fun k t h => ?_⟩
      obtain ⟨t2, h1, h2, h3, h4, h5⟩ := w4 k t h
      exact ⟨t2, h1, h2, h3, h4, h5.imp id (fun q => ⟨q.1, List.mem_cons_of_mem _ q.2⟩)⟩
    · have ht0name : t0.name = n := by
        have := List.find?_some hf
        simpa using this
      have ht0v : t0 ∈ ts.values := List.mem_of_find?_eq_some hf
      have ht0mem : (t0.id, t0) ∈ ts := wf.mem_values_key ht0v
      have hk0 : t0.id ∈ StrMap.keys ts := StrMap.mem_keys_of_mem ht0mem
      have hstep : reassignNamed a ts (n :: rest) =
          reassignNamed a (ts.insert t0.id { t0 with owner := a }) rest := by
        simp only [reassignNamed, List.foldl_cons, hf]
      rw [hstep]
      have wf2 : TerrWf (ts.insert t0.id { t0 with owner := a }) :=
        wf.insert_owner rfl hk0
      obtain ⟨w1, w2, w3, w4⟩ := ih _ wf2
      refine ⟨w1, ?_, ?_, ?_⟩
      · rw [w2, StrMap.keys_insert_of_mem _ hk0]
      · intro k h
        have hkne : t0.id ≠ k := fun he =>
          (StrMap.get_eq_none_iff ts k).mp h (he ▸ hk0)
        exact w3 k (by rw [StrMap.get_insert_ne ts _ hkne]; exact h)
      · intro k t h
        by_cases hkk : t0.id = k
        · have ht0t : t0 = t := by
            have := StrMap.get_of_mem_nodup wf.1 ht0mem
            rw [hkk] at this
            rw [this] at h
            exact (Option.some_injective _ h)
          have hget2 : (ts.insert t0.id { t0 with owner := a }).get k =
              some { t0 with owner := a } := by
            rw [← hkk]
            exact StrMap.get_insert_self ts t0.id _
          obtain ⟨t2, h1, h2, h3, h4, h5⟩ := w4 k _ hget2
          refine ⟨t2, h1, ?_, ?_, ?_, ?_⟩
          · rw [h2, ← ht0t]
          · rw [h3, ← ht0t]
          · rw [h4, ← ht0t]
          · right
            rcases h5 with h5 | h5
            · exact ⟨by rw [h5], by rw [← ht0t, ht0name]; exact List.mem_cons_self _ _⟩
            · exact ⟨h5.1, by rw [← ht0t, ht0name]; exact List.mem_cons_self _ _⟩
        · have hget2 : (ts.insert t0.id { t0 with owner := a }).get k = some t := by
            rw [StrMap.get_insert_ne ts _ hkk]
            exact h
          obtain ⟨t2, h1, h2, h3, h4, h5⟩ := w4 k t hget2
          exact ⟨t2, h1, h2, h3, h4,
            h5.imp id (fun q => ⟨q.1, List.mem_cons_of_mem _ q.2⟩)⟩

/-- A territory whose name is held by no other territory is reassigned
exactly when its name is listed. -/
theorem reassignNamed_get_unique (a : String) :
    ∀ (names : List String) (ts : StrMap Territory) (k : String) (t : Territory),
    TerrWf ts → ts.get k = some t →
    (∀ p ∈ ts, (p.2 : Territory).name = t.name → p.1 = k) →
    (reassignNamed a ts names).get k =
      some { t with owner := if t.name ∈ names then a else t.owner } := by
  intro names
  induction names with
  | nil =>
    intro ts k t _ h _
    simpa [reassignNamed] using h
  | cons n rest ih =>
    intro ts k t wf h huniq
    rcases hf : ts.values.find? (fun x => decide (x.name = n)) with _ | t0
    · have hstep : reassignNamed a ts (n :: rest) = reassignNamed a ts rest := by
        simp only [reassignNamed, List.foldl_cons, hf]
      have htn : t.name ≠ n := by
        have hall := List.find?_eq_none.mp hf
        have htv : t ∈ ts.values :=
          List.mem_map_of_mem Prod.snd (StrMap.mem_of_get_some h)
        intro he
        exact absurd (by simpa using hall t htv) (by simp [he])
      rw [hstep, ih ts k t wf h huniq]
      simp [htn]
    · have ht0name : t0.name = n := by
        have := List.find?_some hf
        simpa using this
      have ht0v : t0 ∈ ts.values := List.mem_of_find?_eq_some hf
      have ht0mem : (t0.id, t0) ∈ ts := wf.mem_values_key ht0v
      have hk0 : t0.id ∈ StrMap.keys ts := StrMap.mem_keys_of_mem ht0mem
      have hstep : reassignNamed a ts (n :: rest) =
          reassignNamed a (ts.insert t0.id { t0 with owner := a }) rest := by
        simp only [reassignNamed, List.foldl_cons, hf]
      rw [hstep]
      have wf2 : TerrWf (ts.insert t0.id { t0 with owner := a }) :=
        wf.insert_owner rfl hk0
      by_cases htn : t.name = n
      · have hkk : t0.id = k := huniq (t0.id, t0) ht0mem (ht0name.trans htn.symm)
        have ht0t : t0 = t := by
          have := StrMap.get_of_mem_nodup wf.1 ht0mem
          rw [hkk] at this
          rw [this] at h
          exact (Option.some_injective _ h)
        have hget2 : (ts.insert t0.id { t0 with owner := a }).get k =
            some { t0 with owner := a } := by
          rw [← hkk]
          exact StrMap.get_insert_self ts t0.id _
        have huniq2 : ∀ p ∈ (ts.insert t0.id { t0 with owner := a }),
            (p.2 : Territory).name = ({ t0 with owner := a } : Territory).name →
            p.1 = k := by
          intro p hp hn
          rcases StrMap.mem_insert hp with hp | hp
          · rw [hp, ← hkk]
          · exact huniq p hp (by rw [← ht0t]; simpa using hn)
        rw [ih _ k { t0 with owner := a } wf2 hget2 huniq2]
        rw [ht0t]
        have hmem : t.name ∈ n :: rest := by
          rw [htn]
          exact List.mem_cons_self _ _
        by_cases hr : t.name ∈ rest <;> simp [hr, hmem]
      · have hkk : t0.id ≠ k := by
          intro he
          have := StrMap.get_of_mem_nodup wf.1 ht0mem
          rw [he] at this
          rw [this] at h
          have := (Option.some_injective _ h)
          exact htn (by rw [← this, ht0name])
        have hget2 : (ts.insert t0.id { t0 with owner := a }).get k = some t := by
          rw [StrMap.get_insert_ne ts _ hkk]
          exact h
        have huniq2 : ∀ p ∈ (ts.insert t0.id { t0 with owner := a }),
            (p.2 : Territory).name = t.name → p.1 = k := by
          intro p hp hn
          rcases StrMap.mem_insert hp with hp | hp
          · exfalso
            apply htn
            rw [hp] at hn
            simp only at hn
            rw [← hn, ht0name]
          · exact huniq p hp hn
        rw [ih _ k t wf2 hget2 huniq2]
        simp [htn]

/-- Characterization of full conquest: pointwise owner replacement. -/
theorem fullConquest_get (agr tgt : String) (ts : StrMap Territory)
    (wf : TerrWf ts) (k : String) :
    (fullConquest agr tgt ts).get k =
      (ts.get k).map (fun t => if t.owner = tgt then { t with owner := agr } else t) := by
  unfold fullConquest
  have hnd : ((ts.values.filter (fun t => decide (t.owner = tgt))).map Territory.id).Nodup := by
    have h1 : (ts.values.map Territory.id).Nodup := by
      rw [wf.values_map_id]
      exact wf.1
    exact List.Nodup.sublist (List.Sublist.map _ (List.filter_sublist _)) h1
  rw [StrMap.foldl_insert_get Territory.id (fun t => { t with owner := agr }) _ ts k hnd]
  rcases hget : ts.get k with _ | t
  · have : (ts.values.filter (fun t => decide (t.owner = tgt))).find?
        (fun t => decide (t.id = k)) = none := by
      rw [List.find?_eq_none]
      intro x hx
      simp only [decide_eq_true_eq]
      intro hxk
      have hxv : x ∈ ts.values := (List.mem_filter.mp hx).1
      have hxmem : (x.id, x) ∈ ts := wf.mem_values_key hxv
      have : x.id ∈ StrMap.keys ts := StrMap.mem_keys_of_mem hxmem
      rw [hxk] at this
      exact (StrMap.get_eq_none_iff ts k).mp hget this
    simp [this, hget]
  · have htid : t.id = k := wf.get_id hget
    by_cases ht : t.owner = tgt
    · have htl : t ∈ ts.values.filter (fun t => decide (t.owner = tgt)) := by
        rw [List.mem_filter]
        exact ⟨List.mem_map_of_mem Prod.snd (StrMap.mem_of_get_some hget), by simpa using ht⟩
      simp only [find?_key_eq_some Territory.id hnd htl htid, hget]
      simp [ht]
    · have : (ts.values.filter (fun t => decide (t.owner = tgt))).find?
          (fun t => decide (t.id = k)) = none := by
        rw [List.find?_eq_none]
        intro x hx
        simp only [decide_eq_true_eq]
        intro hxk
        have hxv : x ∈ ts.values := (List.mem_filter.mp hx).1
        have hxp : x.owner = tgt := by
          have := (List.mem_filter.mp hx).2
          simpa using this
        have hxmem : (x.id, x) ∈ ts := wf.mem_values_key hxv
        have : ts.get x.id = some x := StrMap.get_of_mem_nodup wf.1 hxmem
        rw [hxk, hget] at this
        have := Option.some_injective _ this
        rw [this] at ht
        exact ht hxp
      simp [this, hget, ht]

/-! ## Economic-effect lemmas -/

theorem jsSetAdd_nodup {α : Type} [DecidableEq α] {acc : List α} (x : α)
    (h : acc.Nodup) : (jsSetAdd acc x).Nodup := by
  by_cases hx : x ∈ acc
  · simpa [jsSetAdd, hx]
  · simp [jsSetAdd, hx, List.nodup_append, h]

theorem mem_jsSetAdd {α : Type} [DecidableEq α] (acc : List α) (y x : α) :
    x ∈ jsSetAdd acc y ↔ x ∈ acc ∨ x = y := by
  by_cases hy : y ∈ acc
  · simp only [jsSetAdd, hy, if_pos]
    constructor
    · exact Or.inl
    · rintro (h | rfl)
      · exact h
      · exact hy
  · simp [jsSetAdd, hy]

theorem foldl_jsSetAdd_nodup {α : Type} [DecidableEq α] :
    ∀ (l acc : List α), acc.Nodup → (l.foldl jsSetAdd acc).Nodup := by
  intro l
  induction l with
  | nil => intro acc h; exact h
  | cons y ys ih => intro acc h; exact ih _ (jsSetAdd_nodup y h)

theorem mem_foldl_jsSetAdd {α : Type} [DecidableEq α] :
    ∀ (l acc : List α) (x : α), x ∈ l.foldl jsSetAdd acc ↔ x ∈ acc ∨ x ∈ l := by
  intro l
  induction l with
  | nil => intro acc x; simp
  | cons y ys ih =>
    intro acc x
    simp only [List.foldl_cons, ih, mem_jsSetAdd, List.mem_cons]
    tauto

theorem jsSetUnion_nodup {α : Type} [DecidableEq α] (a b : List α) :
    (jsSetUnion a b).Nodup :=
  foldl_jsSetAdd_nodup _ [] List.nodup_nil

theorem mem_jsSetUnion {α : Type} [DecidableEq α] (a b : List α) (x : α) :
    x ∈ jsSetUnion a b ↔ x ∈ a ∨ x ∈ b := by
  simp [jsSetUnion, mem_foldl_jsSetAdd]

/-- The field-independent normal form of `applyEffect`. -/
theorem applyEffect_eq (c : Country) (e : EconomicEffect) :
    applyEffect c e = { c with
      gdp := match e.gdpChange with
        | some d => max 1 (c.gdp + d)
        | none => c.gdp
      population := match e.populationChange with
        | some d => max (1/10) (c.population + d)
        | none => c.population
      stability := match e.stabilityChange with
        | some d => max 0 (min 100 (c.stability + d))
        | none => c.stability
      militaryStrength := match e.militaryStrengthChange with
        | some d => max 0 (c.militaryStrength + d)
        | none => c.militaryStrength
      resources := match e.newResources with
        | some rs => jsSetUnion c.resources rs
        | none => c.resources } := by
  rcases e with ⟨ec, g, p, s, ms, nr⟩
  cases g <;> cases p <;> cases s <;> cases ms <;> cases nr <;> rfl

theorem Country.ok.applyEffect {c : Country} {e : EconomicEffect}
    (h : c.ok) : (applyEffect c e).ok := by
  obtain ⟨h1, h2, h3, h4, h5⟩ := h
  rw [applyEffect_eq]
  refine ⟨?_, ?_, ?_, ?_, ?_⟩
  · show (0 : ℚ) ≤ (match e.stabilityChange with
      | some d => max 0 (min 100 (c.stability + d))
      | none => c.stability)
    cases e.stabilityChange with
    | none => exact h1
    | some d => exact le_max_left 0 _
  · show (match e.stabilityChange with
      | some d => max 0 (min 100 (c.stability + d))
      | none => c.stability) ≤ (100 : ℚ)
    cases e.stabilityChange with
    | none => exact h2
    | some d => exact max_le (by norm_num) (min_le_left _ _)
  · show (1 : ℚ) ≤ (match e.gdpChange with
      | some d => max 1 (c.gdp + d)
      | none => c.gdp)
    cases e.gdpChange with
    | none => exact h3
    | some d => exact le_max_left 1 _
  · show (1/10 : ℚ) ≤ (match e.populationChange with
      | some d => max (1/10) (c.population + d)
      | none => c.population)
    cases e.populationChange with
    | none => exact h4
    | some d => exact le_max_left _ _
  · show (0 : ℚ) ≤ (match e.militaryStrengthChange with
      | some d => max 0 (c.militaryStrength + d)
      | none => c.militaryStrength)
    cases e.militaryStrengthChange with
    | none => exact h5
    | some d => exact le_max_left 0 _

theorem processOneEffect_ok {m : StrMap Country} {e : EconomicEffect}
    (h : ∀ p ∈ m, Country.ok p.2) : ∀ p ∈ processOneEffect m e, Country.ok p.2 := by
  intro p hp
  rcases hg : m.get e.country with _ | c
  · have heq : processOneEffect m e = m := by
      unfold processOneEffect
      rw [hg]
    rw [heq] at hp
    exact h p hp
  · have heq : processOneEffect m e = m.insert e.country (applyEffect c e) := by
      unfold processOneEffect
      rw [hg]
    rw [heq] at hp
    rcases StrMap.mem_insert hp with hp2 | hp2
    · rw [hp2]
      exact Country.ok.applyEffect (h _ (StrMap.mem_of_get_some hg))
    · exact h p hp2

theorem foldl_processOneEffect_ok :
    ∀ (effs : List EconomicEffect) (m : StrMap Country),
    (∀ p ∈ m, Country.ok p.2) →
    ∀ p ∈ effs.foldl processOneEffect m, Country.ok p.2 := by
  intro effs
  induction effs with
  | nil => intro m h; exact h
  | cons e es ih => intro m h; exact ih _ (processOneEffect_ok h)

/-! ## Claim theorems -/

/-- C4: for every country and every sequence of economic effects applied
through event processing, the resulting stats satisfy 0 ≤ stability ≤ 100,
gdp ≥ 1, population ≥ 0.1 and militaryStrength ≥ 0; `newResources` are
unioned into the resource set without duplicates; and an effect naming a
non-existent country is silently dropped. -/
theorem C4_economic_clamps :
    (∀ (m : StrMap Country) (effs : List EconomicEffect),
      (∀ p ∈ m, Country.ok p.2) →
      ∀ p ∈ effs.foldl processOneEffect m, Country.ok p.2) ∧
    (∀ (c : Country) (e : EconomicEffect) (rs : List String),
      e.newResources = some rs →
      (applyEffect c e).resources.Nodup ∧
      ∀ r, r ∈ (applyEffect c e).resources ↔ (r ∈ c.resources ∨ r ∈ rs)) ∧
    (∀ (m : StrMap Country) (e : EconomicEffect),
      m.get e.country = none → processOneEffect m e = m) := by
  refine ⟨fun m effs h => foldl_processOneEffect_ok effs m h, ?_, ?_⟩
  · intro c e rs hrs
    rw [applyEffect_eq]
    show ((match e.newResources with
      | some rs => jsSetUnion c.resources rs
      | none => c.resources) : List String).Nodup ∧ _
    rw [hrs]
    exact ⟨jsSetUnion_nodup _ _, fun r => mem_jsSetUnion _ _ r⟩
  · intro m e h
    unfold processOneEffect
    rw [h]

/-- Witness for C4 at a concrete country and effect list. -/
theorem C4_economic_clamps_witness :
    (∀ p ∈ ([("Wadiya", countryW)] : StrMap Country), Country.ok p.2) ∧
    (∀ p ∈ ([effW].foldl processOneEffect [("Wadiya", countryW)]), Country.ok p.2) :=
  ⟨by
    intro p hp
    simp only [List.mem_singleton] at hp
    subst hp
    norm_num [Country.ok, countryW],
   C4_economic_clamps.1 [("Wadiya", countryW)] [effW] (by
    intro p hp
    simp only [List.mem_singleton] at hp
    subst hp
    norm_num [Country.ok, countryW])⟩

/-! ## Engine-level lemmas: which handler touches which collection -/

theorem annexationHandler_countries (ev : WorldEvent) (st : WorkState) :
    (annexationHandler ev st).countries = st.countries := by
  unfold annexationHandler
  repeat' split
  all_goals rfl

theorem cityFoundedHandler_countries (env : OracleEnv) (ev : WorldEvent)
    (st : WorkState) : (cityFoundedHandler env ev st).countries = st.countries := by
  unfold cityFoundedHandler
  repeat' split
  all_goals rfl

theorem cityRenamedHandler_countries (ev : WorldEvent) (st : WorkState) :
    (cityRenamedHandler ev st).countries = st.countries := by
  unfold cityRenamedHandler
  repeat' split
  all_goals rfl

theorem cityDestroyedHandler_countries (ev : WorldEvent) (st : WorkState) :
    (cityDestroyedHandler ev st).countries = st.countries := by
  unfold cityDestroyedHandler
  repeat' split
  all_goals rfl

theorem deployUnitHandler_countries (env : OracleEnv) (ev : WorldEvent)
    (st : WorkState) : (deployUnitHandler env ev st).countries = st.countries := by
  unfold deployUnitHandler
  repeat' split
  all_goals first
    | rfl
    | (dsimp only; split <;> rfl)

theorem manufactureCompleteHandler_countries (ev : WorldEvent) (st : WorkState) :
    (manufactureCompleteHandler ev st).countries = st.countries := by
  unfold manufactureCompleteHandler
  repeat' split
  all_goals rfl

theorem scrapUnitHandler_countries (ev : WorldEvent) (st : WorkState) :
    (scrapUnitHandler ev st).countries = st.countries := by
  unfold scrapUnitHandler
  repeat' split
  all_goals rfl

theorem countryFormationHandler_countries_le (ev : WorldEvent) (st : WorkState) :
    st.countries.length ≤ (countryFormationHandler ev st).countries.length := by
  unfold countryFormationHandler
  repeat' split
  all_goals simp [StrMap.length_le_insert]

theorem processOneEffect_length_le (m : StrMap Country) (e : EconomicEffect) :
    m.length ≤ (processOneEffect m e).length := by
  unfold processOneEffect
  split
  · exact StrMap.length_le_insert _ _ _
  · exact le_refl _

theorem processEconomicEffects_length_le (m : StrMap Country) (ev : WorldEvent) :
    m.length ≤ (processEconomicEffects m ev).length := by
  unfold processEconomicEffects
  split
  · exact foldl_nat_le List.length processOneEffect processOneEffect_length_le _ m
  · exact le_refl _

theorem stepEvent_countries_le (env : OracleEnv) (st : WorkState)
    (ev : WorldEvent) : st.countries.length ≤ (stepEvent env st ev).countries.length := by
  have h1 : st.countries.length ≤ (processEconomicEffects st.countries ev).length :=
    processEconomicEffects_length_le st.countries ev
  rcases hty : ev.type <;> simp only [stepEvent, hty] <;>
    first
      | exact h1
      | (rw [annexationHandler_countries]; exact h1)
      | (rw [cityFoundedHandler_countries]; exact h1)
      | (rw [cityRenamedHandler_countries]; exact h1)
      | (rw [cityDestroyedHandler_countries]; exact h1)
      | (rw [deployUnitHandler_countries]; exact h1)
      | (rw [manufactureCompleteHandler_countries]; exact h1)
      | (rw [scrapUnitHandler_countries]; exact h1)
      | exact le_trans h1 (countryFormationHandler_countries_le ev
          { st with countries := processEconomicEffects st.countries ev })

/-- C3: for every state and event batch (any length, including empty), the
engine increments `year` by exactly 1 and never shrinks the `countries` map. -/
theorem C3_apply_year_and_countries (env : OracleEnv) (prev : GameState)
    (events : List WorldEvent) :
    (handleNewEvents env prev events).year = prev.year + 1 ∧
    prev.countries.length ≤ (handleNewEvents env prev events).countries.length := by
  constructor
  · rfl
  · show prev.countries.length ≤
      ((events.reverse.foldl (stepEvent env) (initialWork prev)).countries).length
    exact foldl_nat_le (fun st => st.countries.length) (stepEvent env)
      (fun b c => stepEvent_countries_le env b c) events.reverse (initialWork prev)

/-- C1 (amended): the committed event log prepends the batch in its delivered
order, while handler side effects fold over the REVERSED batch — two events
delivered as a, b take effect as b then a. -/
theorem C1_batch_order (env : OracleEnv) (prev : GameState) :
    (∀ events, (handleNewEvents env prev events).events = events ++ prev.events) ∧
    (∀ a b, handleNewEvents env prev [a, b] =
      commitWork prev [a, b] (stepEvent env (stepEvent env (initialWork prev) b) a)) := by
  exact ⟨fun _ => rfl, fun _ _ => rfl⟩

/-- C1 counterexample: on a one-territory state and a two-annexation batch,
the engine result differs from the spec-described engine on both the
compounded owner and the committed log order. -/
theorem C1_counterexample :
    handleNewEvents envTriv stateC1 [evAnnexAX, evAnnexBA] ≠
      specOrderApply envTriv stateC1 [evAnnexAX, evAnnexBA] ∧
    ((handleNewEvents envTriv stateC1 [evAnnexAX, evAnnexBA]).territories.get "T1").map
      Territory.owner = some "A" ∧
    ((specOrderApply envTriv stateC1 [evAnnexAX, evAnnexBA]).territories.get "T1").map
      Territory.owner = some "B" ∧
    (handleNewEvents envTriv stateC1 [evAnnexAX, evAnnexBA]).events =
      [evAnnexAX, evAnnexBA] ∧
    (specOrderApply envTriv stateC1 [evAnnexAX, evAnnexBA]).events =
      [evAnnexBA, evAnnexAX] := by
  refine ⟨by decide, by decide, by decide, by decide, by decide⟩

theorem StrMap.get_map_const {α β : Type} (m : StrMap α) (c : β) (k : String) :
    StrMap.get (m.map (fun p => (p.1, c))) k = (m.get k).map (fun _ => c) := by
  induction m with
  | nil => rfl
  | cons p ps ih =>
    by_cases hp : p.1 = k
    · simp [StrMap.get, hp]
    · simpa [StrMap.get, hp] using ih

/-- C2: the initial snapshot fixes the epoch year, a null player, empty
events, chats and military units, and one zero-initialized arsenal row per
built country — all three unit types present, `maxUnits` a small positive
default, `unitNames` empty. -/
theorem C2_initial_snapshot (md : MapData) :
    (generateInitialGameState md).year = 2024 ∧
    (generateInitialGameState md).playerCountryName = none ∧
    (generateInitialGameState md).events = [] ∧
    (generateInitialGameState md).chats = [] ∧
    (generateInitialGameState md).pendingInvitations = [] ∧
    (generateInitialGameState md).militaryUnits = [] ∧
    (∀ name, ((generateInitialGameState md).countries.get name).isSome →
      (generateInitialGameState md).arsenal.get name = some defaultCountryArsenal) ∧
    (0 : ℚ) < DEFAULT_MAX_UNITS ∧
    defaultCountryArsenal.army = { maxUnits := DEFAULT_MAX_UNITS, unitNames := [] } ∧
    defaultCountryArsenal.navy = { maxUnits := DEFAULT_MAX_UNITS, unitNames := [] } ∧
    defaultCountryArsenal.airForce = { maxUnits := DEFAULT_MAX_UNITS, unitNames := [] } := by
  refine ⟨rfl, rfl, rfl, rfl, rfl, rfl, ?_, ?_, rfl, rfl, rfl⟩
  · intro name h
    rw [show (generateInitialGameState md).arsenal =
      ((generateInitialGameState md).countries).map (fun p => (p.1, defaultCountryArsenal)) from rfl]
    rw [StrMap.get_map_const]
    rcases hg : (generateInitialGameState md).countries.get name with _ | c
    · rw [hg] at h
      exact absurd h (by simp)
    · rfl
  · norm_num [DEFAULT_MAX_UNITS]

/-- Witness for C2 on a one-country geography. -/
theorem C2_initial_snapshot_witness :
    (generateInitialGameState mdFrance).arsenal.get "France" =
      some defaultCountryArsenal ∧
    (generateInitialGameState mdFrance).year = 2024 :=
  ⟨(C2_initial_snapshot mdFrance).2.2.2.2.2.2.1 "France" (by decide),
   (C2_initial_snapshot mdFrance).1⟩

/-- C5: an ANNEXATION without exactly two involved countries changes
nothing; with explicit territory names only (first-matching) named
territories are reassigned to the aggressor and unknown names are ignored,
all territories with unlisted names surviving untouched; with no territory
names every territory owned by the target moves to the aggressor. -/
theorem C5_annexation_policy :
    (∀ (ev : WorldEvent) (st : WorkState), ev.countries.length ≠ 2 →
      annexationHandler ev st = st) ∧
    (∀ (ev : WorldEvent) (st : WorkState) (agr tgt : String)
        (names : List String),
      ev.countries = [agr, tgt] → ev.territoryNames = some names →
      names ≠ [] → TerrWf st.territories →
      ((∀ k t, st.territories.get k = some t → t.name ∉ names →
          (annexationHandler ev st).territories.get k = some t) ∧
       (∀ k t, st.territories.get k = some t →
          (∀ p ∈ st.territories, (p.2 : Territory).name = t.name → p.1 = k) →
          (annexationHandler ev st).territories.get k =
            some { t with owner := if t.name ∈ names then agr else t.owner }))) ∧
    (∀ (ev : WorldEvent) (st : WorkState) (agr tgt : String),
      ev.countries = [agr, tgt] →
      (ev.territoryNames = none ∨ ev.territoryNames = some []) →
      TerrWf st.territories →
      ∀ k, (annexationHandler ev st).territories.get k =
        (st.territories.get k).map
          (fun t => if t.owner = tgt then { t with owner := agr } else t)) := by
  refine ⟨?_, ?_, ?_⟩
  · intro ev st h
    unfold annexationHandler
    rcases hc : ev.countries with _ | ⟨a, _ | ⟨b, _ | ⟨c, rest⟩⟩⟩ <;>
      first
        | rfl
        | (exfalso; rw [hc] at h; simp at h)
  · intro ev st agr tgt names hc hn hne wf
    have hred : annexationHandler ev st =
        { st with territories := reassignNamed agr st.territories names } := by
      unfold annexationHandler
      rw [hc, hn]
      dsimp only
      rw [if_pos (by simpa using List.length_pos.mpr hne)]
    rw [hred]
    constructor
    · intro k t hget hnot
      obtain ⟨_, _, _, w4⟩ := reassignNamed_props agr names st.territories wf
      obtain ⟨t2, h1, h2, h3, h4, h5⟩ := w4 k t hget
      rcases h5 with h5 | h5
      · rw [h1, h5]
      · exact absurd h5.2 hnot
    · intro k t hget huniq
      exact reassignNamed_get_unique agr names st.territories k t wf hget huniq
  · intro ev st agr tgt hc hn wf k
    have hred : annexationHandler ev st =
        { st with territories := fullConquest agr tgt st.territories } := by
      unfold annexationHandler
      rw [hc]
      rcases hn with hn | hn
      · rw [hn]
      · rw [hn]
        dsimp only
        rw [if_neg (by decide)]
    rw [hred]
    exact fullConquest_get agr tgt st.territories wf k

/-- Witness for C5: Scenario A — explicit `territoryNames = ["Texas"]`
reassigns only Texas; California is untouched; full conquest moves both. -/
theorem C5_annexation_policy_witness :
    (annexationHandler evTexas workA).territories.get "Texas" =
      some { terrTexas with owner := "Republic of Texas" } ∧
    (annexationHandler evTexas workA).territories.get "California" =
      some terrCal ∧
    (annexationHandler evFullConquest workA).territories.get "California" =
      some { terrCal with owner := "Republic of Texas" } := by
  refine ⟨?_, ?_, ?_⟩
  · have h := (C5_annexation_policy.2.1 evTexas workA "Republic of Texas" "USA"
      ["Texas"] rfl rfl (by decide) (by decide)).2 "Texas" terrTexas
      (by decide) (by decide)
    simpa [terrTexas] using h
  · exact (C5_annexation_policy.2.1 evTexas workA "Republic of Texas" "USA"
      ["Texas"] rfl rfl (by decide) (by decide)).1 "California" terrCal
      (by decide) (by decide)
  · have h := C5_annexation_policy.2.2 evFullConquest workA "Republic of Texas"
      "USA" rfl (Or.inl rfl) (by decide) "California"
    simpa [terrCal, workA] using h

theorem countryFormationHandler_eq {ev : WorldEvent} {nm : String}
    {names : List String} (st : WorkState) (hnm : ev.newCountryName = some nm)
    (hne : nm ≠ "") (hns : ev.territoryNames = some names) :
    countryFormationHandler ev st =
      { st with
        countries :=
          if (st.countries.get nm).isSome then st.countries
          else st.countries.insert nm (newFormationCountry nm)
        territories := reassignNamed nm st.territories names } := by
  unfold countryFormationHandler
  rw [hnm, hns]
  dsimp only
  rw [if_neg hne]
  by_cases hg : (st.countries.get nm).isSome
  · rw [if_pos hg, if_pos hg]
  · rw [if_neg hg, if_neg hg]

/-- C6: COUNTRY_FORMATION country-creation is idempotent — applying the same
formation event twice leaves exactly one `countries` entry for the new name;
when the country already exists the creation step is a no-op while the
territory reassignment still runs. -/
theorem C6_formation_idempotent (ev : WorldEvent) (st : WorkState)
    (nm : String) (names : List String) (hnm : ev.newCountryName = some nm)
    (hne : nm ≠ "") (hns : ev.territoryNames = some names)
    (hnd : st.countries.KeysNodup) :
    ((StrMap.keys (countryFormationHandler ev (countryFormationHandler ev st)).countries).count nm = 1) ∧
    ((st.countries.get nm).isSome →
      (countryFormationHandler ev st).countries = st.countries) ∧
    ((countryFormationHandler ev st).territories =
      reassignNamed nm st.territories names) := by
  have h1 := countryFormationHandler_eq st hnm hne hns
  refine ⟨?_, ?_, ?_⟩
  · have hsome1 : ((countryFormationHandler ev st).countries.get nm).isSome := by
      rw [h1]
      by_cases hg : (st.countries.get nm).isSome
      · simpa [hg] using hg
      · simp only [hg, if_neg, Bool.false_eq_true, not_false_iff]
        rw [StrMap.get_insert_self]
        rfl
    have h2 := countryFormationHandler_eq (countryFormationHandler ev st) hnm hne hns
    have hcount1 : (StrMap.keys (countryFormationHandler ev st).countries).count nm = 1 := by
      rw [h1]
      by_cases hg : (st.countries.get nm).isSome
      · simp only [hg, if_pos]
        have hmem : nm ∈ StrMap.keys st.countries :=
          (StrMap.get_isSome_iff st.countries nm).mp hg
        have hle := List.nodup_iff_count_le_one.mp hnd nm
        have hge := List.count_pos_iff_mem.mpr hmem
        omega
      · simp only [hg, if_neg, Bool.false_eq_true, not_false_iff]
        have hnotmem : nm ∉ StrMap.keys st.countries := by
          intro hmem
          exact hg ((StrMap.get_isSome_iff st.countries nm).mpr hmem)
        rw [StrMap.keys_insert_of_not_mem _ hnotmem]
        rw [List.count_append]
        rw [List.count_eq_zero.mpr hnotmem]
        simp
    rw [h2]
    simpa [hsome1] using hcount1
  · intro hg
    rw [h1]
    simp [hg]
  · rw [h1]

/-- Witness for C6 at a fresh formation event over the Scenario A state. -/
theorem C6_formation_idempotent_witness :
    ((StrMap.keys (countryFormationHandler evZion (countryFormationHandler evZion workA)).countries).count "Zion" = 1) ∧
    ((countryFormationHandler evZion workA).territories =
      reassignNamed "Zion" workA.territories ["Texas"]) :=
  ⟨(C6_formation_idempotent evZion workA "Zion" ["Texas"] rfl (by decide) rfl
      (by decide)).1,
   (C6_formation_idempotent evZion workA "Zion" ["Texas"] rfl (by decide) rfl
      (by decide)).2.2⟩

/-! ## Deployment-path lemmas -/

theorem deployUnitHandler_arsenal (env : OracleEnv) (ev : WorldEvent)
    (st : WorkState) : (deployUnitHandler env ev st).arsenal = st.arsenal := by
  unfold deployUnitHandler
  repeat' split
  all_goals first
    | rfl
    | (dsimp only; split <;> rfl)

/-- Either the AI deploy handler leaves the unit map alone, or every guard
passed and exactly the first proposed unit was inserted. -/
theorem deployUnitHandler_chars (env : OracleEnv) (ev : WorldEvent)
    (st : WorkState) :
    (deployUnitHandler env ev st).militaryUnits = st.militaryUnits ∨
    ∃ cn country uType loc l u,
      ev.countries.head? = some cn ∧
      st.countries.get cn = some country ∧
      ev.unitType = some uType ∧
      ev.locationDescription = some loc ∧
      ¬((unitCount st.militaryUnits cn uType : ℚ) ≥ maxUnitsOf st.arsenal cn uType) ∧
      env.deployResult st.tick = some l ∧ l.head? = some u ∧
      (deployUnitHandler env ev st).militaryUnits =
        st.militaryUnits.insert
          (unitFromProposal country.name uType (env.now st.tick) u).id
          (unitFromProposal country.name uType (env.now st.tick) u) := by
  rcases h1 : ev.countries.head? with _ | cn
  · left
    have heq : deployUnitHandler env ev st = st := by
      unfold deployUnitHandler
      rw [h1]
    rw [heq]
  · rcases h2 : st.countries.get cn with _ | country
    · left
      have heq : deployUnitHandler env ev st = st := by
        unfold deployUnitHandler
        rw [h1]
        dsimp only
        rw [h2]
      rw [heq]
    rcases h3 : ev.unitType with _ | uType
    · left
      have heq : deployUnitHandler env ev st = st := by
        unfold deployUnitHandler
        rw [h1]
        dsimp only
        rw [h2, h3]
      rw [heq]
    rcases h4 : ev.locationDescription with _ | loc
    · left
      have heq : deployUnitHandler env ev st = st := by
        unfold deployUnitHandler
        rw [h1]
        dsimp only
        rw [h2, h3, h4]
      rw [heq]
    by_cases h5 : loc = ""
    · left
      have heq : deployUnitHandler env ev st = st := by
        unfold deployUnitHandler
        rw [h1]
        dsimp only
        rw [h2, h3, h4]
        dsimp only
        rw [if_pos h5]
      rw [heq]
    · by_cases h6 : (unitCount st.militaryUnits cn uType : ℚ) ≥
          maxUnitsOf st.arsenal cn uType
      · left
        have heq : deployUnitHandler env ev st = st := by
          unfold deployUnitHandler
          rw [h1]
          dsimp only
          rw [h2, h3, h4]
          dsimp only
          rw [if_neg h5, if_pos h6]
        rw [heq]
      · rcases h7 : env.deployResult st.tick with _ | l
        · left
          have heq : deployUnitHandler env ev st = { st with tick := st.tick + 1 } := by
            unfold deployUnitHandler
            rw [h1]
            dsimp only
            rw [h2, h3, h4]
            dsimp only
            rw [if_neg h5, if_neg h6, h7]
          rw [heq]
        · rcases h8 : l.head? with _ | u
          · left
            have heq : deployUnitHandler env ev st = { st with tick := st.tick + 1 } := by
              unfold deployUnitHandler
              rw [h1]
              dsimp only
              rw [h2, h3, h4]
              dsimp only
              rw [if_neg h5, if_neg h6, h7]
              dsimp only
              rw [h8]
            rw [heq]
          · right
            refine ⟨cn, country, uType, loc, l, u, rfl, h2, rfl, rfl, h6, rfl, h8, ?_⟩
            have heq : deployUnitHandler env ev st =
                { st with
                  militaryUnits := st.militaryUnits.insert
                    (unitFromProposal country.name uType (env.now st.tick) u).id
                    (unitFromProposal country.name uType (env.now st.tick) u)
                  tick := st.tick + 1 } := by
              unfold deployUnitHandler
              rw [h1]
              dsimp only
              rw [h2, h3, h4]
              dsimp only
              rw [if_neg h5, if_neg h6, h7]
              dsimp only
              rw [h8]
            rw [heq]

/-- AI-path arsenal ceiling, provided the oracle honors the requested type
and the relevant ceiling is a whole number. -/
theorem deployUnitHandler_ceiling (env : OracleEnv) (ev : WorldEvent)
    (st : WorkState) (C : String) (T : UnitType)
    (hwfc : ∀ p ∈ st.countries, (p.2 : Country).name = p.1)
    (htype : ∀ l u, env.deployResult st.tick = some l → l.head? = some u →
      ev.unitType = some u.type)
    (hint : ∃ n : ℕ, maxUnitsOf st.arsenal C T = (n : ℚ))
    (hpre : (unitCount st.militaryUnits C T : ℚ) ≤ maxUnitsOf st.arsenal C T) :
    (unitCount (deployUnitHandler env ev st).militaryUnits C T : ℚ) ≤
      maxUnitsOf (deployUnitHandler env ev st).arsenal C T := by
  rw [deployUnitHandler_arsenal]
  rcases deployUnitHandler_chars env ev st with h | ⟨cn, country, uType, loc, l, u,
    e1, e2, e3, e4, e6, e7, e8, heq⟩
  · rw [h]
    exact hpre
  · rw [heq]
    have hb := StrMap.filter_values_insert_le st.militaryUnits
      (unitFromProposal country.name uType (env.now st.tick) u).id
      (unitFromProposal country.name uType (env.now st.tick) u)
      (fun v => decide (v.owner = C ∧ v.type = T))
    by_cases hmatch : (unitFromProposal country.name uType (env.now st.tick) u).owner = C ∧
        (unitFromProposal country.name uType (env.now st.tick) u).type = T
    · have hCn : country.name = cn := hwfc _ (StrMap.mem_of_get_some e2)
      have hC : C = cn := by
        rw [← hmatch.1]
        exact hCn
      have hTu : ev.unitType = some u.type := htype l u e7 e8
      have hT : T = uType := by
        rw [e3] at hTu
        have : uType = u.type := Option.some_injective _ hTu
        rw [← hmatch.2, this]
        rfl
      subst hC hT
      obtain ⟨n, hn⟩ := hint
      have hlt : (unitCount st.militaryUnits C T : ℚ) <
          maxUnitsOf st.arsenal C T := lt_of_not_ge e6
      rw [hn] at hlt ⊢
      have hltn : unitCount st.militaryUnits C T < n := by exact_mod_cast hlt
      have hcount : unitCount (st.militaryUnits.insert
          (unitFromProposal country.name T (env.now st.tick) u).id
          (unitFromProposal country.name T (env.now st.tick) u)) C T ≤
          unitCount st.militaryUnits C T + 1 := by
        have hd : (decide ((unitFromProposal country.name T (env.now st.tick) u).owner = C ∧
            (unitFromProposal country.name T (env.now st.tick) u).type = T)) = true := by
          simpa using hmatch
        unfold unitCount
        simpa [hd] using hb
      have : unitCount (st.militaryUnits.insert
          (unitFromProposal country.name T (env.now st.tick) u).id
          (unitFromProposal country.name T (env.now st.tick) u)) C T ≤ n := by
        omega
      exact_mod_cast this
    · have hd : (decide ((unitFromProposal country.name uType (env.now st.tick) u).owner = C ∧
          (unitFromProposal country.name uType (env.now st.tick) u).type = T)) = false := by
        simpa using hmatch
      have hcount : unitCount (st.militaryUnits.insert
          (unitFromProposal country.name uType (env.now st.tick) u).id
          (unitFromProposal country.name uType (env.now st.tick) u)) C T ≤
          unitCount st.militaryUnits C T := by
        unfold unitCount
        simpa [hd] using hb
      exact le_trans (by exact_mod_cast hcount) hpre

/-- The AI deploy handler drops an over-capacity request without mutating
anything. -/
theorem deployUnitHandler_over_capacity (env : OracleEnv) (ev : WorldEvent)
    (st : WorkState) (cn : String) (country : Country) (uType : UnitType)
    (loc : String) (h1 : ev.countries.head? = some cn)
    (h2 : st.countries.get cn = some country) (h3 : ev.unitType = some uType)
    (h4 : ev.locationDescription = some loc) (h5 : loc ≠ "")
    (h6 : (unitCount st.militaryUnits cn uType : ℚ) ≥ maxUnitsOf st.arsenal cn uType) :
    deployUnitHandler env ev st = st := by
  unfold deployUnitHandler
  rw [h1]
  dsimp only
  rw [h2, h3, h4]
  dsimp only
  rw [if_neg h5, if_pos h6]

theorem length_filter_enumFrom_map {α β : Type} (f : Nat × α → β)
    (p : β → Bool) (q : α → Bool) (hq : ∀ i a, p (f (i, a)) = q a) :
    ∀ (l : List α) (n : Nat),
    (((List.enumFrom n l).map f).filter p).length = (l.filter q).length := by
  intro l
  induction l with
  | nil => intro n; rfl
  | cons a as ih =>
    intro n
    simp only [List.enumFrom, List.map_cons, List.filter_cons, hq n a]
    cases q a <;> simp [ih (n + 1)]

/-- Either the player deploy path rejects without touching the state, or
every guard and capacity check passed and all proposed units were inserted. -/
theorem handleDeployUnit_chars (prev : GameState)
    (proposed : Option (List ProposedUnit)) (now : Nat) :
    (handleDeployUnit prev proposed now).1 = prev ∨
    ∃ playerName country proposedUnits countryArsenal,
      prev.playerCountryName = some playerName ∧
      prev.countries.get playerName = some country ∧
      proposed = some proposedUnits ∧
      prev.arsenal.get country.name = some countryArsenal ∧
      (∀ t, t ∈ proposedUnits.foldl (fun acc u => jsSetAdd acc u.type) [] →
        ¬(((unitCount prev.militaryUnits country.name t : ℚ) +
           ((proposedUnits.filter (fun u => decide (u.type = t))).length : ℚ)) >
          (countryArsenal.get t).maxUnits)) ∧
      (handleDeployUnit prev proposed now).1 =
        { prev with militaryUnits :=
            ((proposedUnits.enum.map
              (fun p => mkPlayerUnit country.name now p.2 p.1)).foldl
              (fun m u => m.insert u.id u) prev.militaryUnits) } := by
  rcases g1 : prev.playerCountryName with _ | playerName
  · left
    have heq : handleDeployUnit prev proposed now = (prev, []) := by
      unfold handleDeployUnit
      rw [g1]
    rw [heq]
  · by_cases g2 : playerName = ""
    · left
      have heq : handleDeployUnit prev proposed now = (prev, []) := by
        unfold handleDeployUnit
        rw [g1]
        try dsimp only
        rw [if_pos g2]
      rw [heq]
    rcases g3 : prev.countries.get playerName with _ | country
    · left
      have heq : handleDeployUnit prev proposed now = (prev, []) := by
        unfold handleDeployUnit
        rw [g1]
        try dsimp only
        rw [if_neg g2]
        try dsimp only
        rw [g3]
      rw [heq]
    rcases g4 : proposed with _ | proposedUnits
    · left
      have heq : handleDeployUnit prev none now =
          (prev, [{ message := "Deployment Failed: An unknown error occurred."
                    ttype := .error }]) := by
        unfold handleDeployUnit
        rw [g1]
        try dsimp only
        rw [if_neg g2]
        try dsimp only
        rw [g3]
      rw [heq]
    by_cases g5 : proposedUnits.length = 0
    · left
      have heq : (handleDeployUnit prev (some proposedUnits) now).1 = prev := by
        unfold handleDeployUnit
        rw [g1]
        try dsimp only
        rw [if_neg g2]
        try dsimp only
        rw [g3]
        try dsimp only
        rw [if_pos g5]
      rw [heq]
    rcases g6 : prev.arsenal.get country.name with _ | countryArsenal
    · left
      have heq : (handleDeployUnit prev (some proposedUnits) now).1 = prev := by
        unfold handleDeployUnit
        rw [g1]
        try dsimp only
        rw [if_neg g2]
        try dsimp only
        rw [g3]
        try dsimp only
        rw [if_neg g5]
        try dsimp only
        rw [g6]
      rw [heq]
    rcases g7 : (proposedUnits.foldl (fun acc u => jsSetAdd acc u.type) []).find?
        (fun t => decide (((unitCount prev.militaryUnits country.name t : ℚ) +
          ((proposedUnits.filter (fun u => decide (u.type = t))).length : ℚ)) >
          (countryArsenal.get t).maxUnits)) with _ | viol
    · right
      refine ⟨playerName, country, proposedUnits, countryArsenal, rfl, g3, rfl, g6, ?_, ?_⟩
      · intro t ht
        have hall := List.find?_eq_none.mp g7 t ht
        simpa using hall
      · have heq : (handleDeployUnit prev (some proposedUnits) now).1 =
            { prev with militaryUnits :=
              ((proposedUnits.enum.map
                (fun p => mkPlayerUnit country.name now p.2 p.1)).foldl
                (fun m u => m.insert u.id u) prev.militaryUnits) } := by
          unfold handleDeployUnit
          rw [g1]
          try dsimp only
          rw [if_neg g2]
          try dsimp only
          rw [g3]
          try dsimp only
          rw [if_neg g5]
          try dsimp only
          rw [g6]
          try dsimp only
          rw [g7]
        rw [heq, g1]
    · left
      have heq : (handleDeployUnit prev (some proposedUnits) now).1 = prev := by
        unfold handleDeployUnit
        rw [g1]
        try dsimp only
        rw [if_neg g2]
        try dsimp only
        rw [g3]
        try dsimp only
        rw [if_neg g5]
        try dsimp only
        rw [g6]
        try dsimp only
        rw [g7]
      rw [heq]

/-- Player-path arsenal ceiling: unconditional preservation. -/
theorem handleDeployUnit_ceiling (prev : GameState)
    (proposed : Option (List ProposedUnit)) (now : Nat) (C : String) (T : UnitType)
    (hpre : (unitCount prev.militaryUnits C T : ℚ) ≤ maxUnitsOf prev.arsenal C T) :
    (unitCount (handleDeployUnit prev proposed now).1.militaryUnits C T : ℚ) ≤
      maxUnitsOf prev.arsenal C T := by
  rcases handleDeployUnit_chars prev proposed now with h | ⟨pn, country, pus, ca,
    g1, g3, g4, g6, hval, heq⟩
  · rw [h]
    exact hpre
  · rw [heq]
    have hb := StrMap.filter_values_foldl_insert_le MilitaryUnit.id (fun u => u)
      (fun v => decide (v.owner = C ∧ v.type = T))
      (pus.enum.map (fun p => mkPlayerUnit country.name now p.2 p.1))
      prev.militaryUnits
    by_cases hC : country.name = C
    · by_cases hTmem : T ∈ pus.map (fun u => u.type)
      · have hkeys : T ∈ pus.foldl (fun acc u => jsSetAdd acc u.type) [] := by
          rw [show pus.foldl (fun acc u => jsSetAdd acc u.type) [] =
            (pus.map (fun u => u.type)).foldl jsSetAdd [] from (List.foldl_map _ _ _ _).symm]
          rw [mem_foldl_jsSetAdd]
          exact Or.inr hTmem
        have hv := hval T hkeys
        rw [not_lt] at hv
        have hmax : maxUnitsOf prev.arsenal C T = (ca.get T).maxUnits := by
          subst hC
          unfold maxUnitsOf
          rw [g6]
        have hmcount : (((pus.enum.map (fun p => mkPlayerUnit country.name now p.2 p.1)).filter
            (fun t => decide ((t : MilitaryUnit).owner = C ∧ t.type = T))).length) =
            ((pus.filter (fun u => decide (u.type = T))).length) := by
          rw [show pus.enum = List.enumFrom 0 pus from rfl]
          exact length_filter_enumFrom_map _ _ _
            (fun i a => by simp [mkPlayerUnit, hC]) pus 0
        have hcount : unitCount ((pus.enum.map
            (fun p => mkPlayerUnit country.name now p.2 p.1)).foldl
            (fun m u => m.insert u.id u) prev.militaryUnits) C T ≤
            unitCount prev.militaryUnits C T +
              (pus.filter (fun u => decide (u.type = T))).length := by
          unfold unitCount
          calc ((((pus.enum.map (fun p => mkPlayerUnit country.name now p.2 p.1)).foldl
              (fun m u => m.insert u.id u) prev.militaryUnits).values.filter
              (fun v => decide (v.owner = C ∧ v.type = T))).length)
              ≤ ((prev.militaryUnits.values.filter
                  (fun v => decide (v.owner = C ∧ v.type = T))).length) +
                (((pus.enum.map (fun p => mkPlayerUnit country.name now p.2 p.1)).filter
                  (fun t => decide ((t : MilitaryUnit).owner = C ∧ t.type = T))).length) := hb
            _ = _ := by rw [hmcount]
        rw [hmax]
        have hcast : ((unitCount prev.militaryUnits C T +
            (pus.filter (fun u => decide (u.type = T))).length : ℕ) : ℚ) ≤
            (ca.get T).maxUnits := by
          push_cast
          rw [hC] at hv
          exact hv
        exact le_trans (by exact_mod_cast hcount) hcast
      · have hzero : (((pus.enum.map (fun p => mkPlayerUnit country.name now p.2 p.1)).filter
            (fun t => decide ((t : MilitaryUnit).owner = C ∧ t.type = T))).length) = 0 := by
          rw [List.length_eq_zero, List.filter_eq_nil]
          intro a ha
          rcases List.mem_map.mp ha with ⟨p, hp, hpa⟩
          simp only [decide_eq_true_eq, not_and]
          intro _
          rw [← hpa]
          intro hteq
          apply hTmem
          have : p.2 ∈ pus := by
            have := List.mem_map_of_mem Prod.snd hp
            simpa using this
          have htype2 : (mkPlayerUnit country.name now p.2 p.1).type = p.2.type := rfl
          rw [htype2] at hteq
          rw [← hteq]
          exact List.mem_map_of_mem _ this
        have hcount : unitCount ((pus.enum.map
            (fun p => mkPlayerUnit country.name now p.2 p.1)).foldl
            (fun m u => m.insert u.id u) prev.militaryUnits) C T ≤
            unitCount prev.militaryUnits C T := by
          unfold unitCount
          have := hb
          rw [hzero] at this
          simpa using this
        exact le_trans (by exact_mod_cast hcount) hpre
    · have hzero : (((pus.enum.map (fun p => mkPlayerUnit country.name now p.2 p.1)).filter
          (fun t => decide ((t : MilitaryUnit).owner = C ∧ t.type = T))).length) = 0 := by
        rw [List.length_eq_zero, List.filter_eq_nil]
        intro a ha
        rcases List.mem_map.mp ha with ⟨p, _, hpa⟩
        simp only [decide_eq_true_eq, not_and]
        intro howner
        exfalso
        apply hC
        rw [← hpa] at howner
        exact howner
      have hcount : unitCount ((pus.enum.map
          (fun p => mkPlayerUnit country.name now p.2 p.1)).foldl
          (fun m u => m.insert u.id u) prev.militaryUnits) C T ≤
          unitCount prev.militaryUnits C T := by
        unfold unitCount
        have := hb
        rw [hzero] at this
        simpa using this
      exact le_trans (by exact_mod_cast hcount) hpre

/-- Unless the success toast was emitted, the player deploy path did not
change the game state. -/
theorem handleDeployUnit_no_mutation_unless_success (prev : GameState)
    (proposed : Option (List ProposedUnit)) (now : Nat) :
    (handleDeployUnit prev proposed now).1 = prev ∨
    (handleDeployUnit prev proposed now).2 =
      [{ message := "unit(s) deployed successfully.", ttype := .success }] := by
  unfold handleDeployUnit
  repeat' first
    | split
    | dsimp only
  all_goals first
    | (left; rfl)
    | (right; rfl)

/-- A capacity violation on the player path is rejected before any mutation
and surfaces an error toast. -/
theorem handleDeployUnit_reject (prev : GameState) (pus : List ProposedUnit)
    (now : Nat) (playerName : String) (country : Country)
    (countryArsenal : CountryArsenal) (viol : UnitType)
    (g1 : prev.playerCountryName = some playerName) (g2 : playerName ≠ "")
    (g3 : prev.countries.get playerName = some country)
    (g5 : ¬pus.length = 0)
    (g6 : prev.arsenal.get country.name = some countryArsenal)
    (g7 : (pus.foldl (fun acc u => jsSetAdd acc u.type) []).find?
        (fun t => decide (((unitCount prev.militaryUnits country.name t : ℚ) +
          ((pus.filter (fun u => decide (u.type = t))).length : ℚ)) >
          (countryArsenal.get t).maxUnits)) = some viol) :
    handleDeployUnit prev (some pus) now =
      (prev, [{ message := "Deployment failed: insufficient slots available."
                ttype := .error }]) := by
  unfold handleDeployUnit
  rw [g1]
  try dsimp only
  rw [if_neg g2]
  try dsimp only
  rw [g3]
  try dsimp only
  rw [if_neg g5]
  try dsimp only
  rw [g6]
  try dsimp only
  rw [g7]

/-- C7 (amended): deployment never exceeds the arsenal ceiling on the player
path, and on the AI path provided the oracle's proposed unit has the
requested type (the handler checks capacity only for `event.unitType` but
stores a unit of the proposed type) and the ceiling is a whole number; a
player deployment that would exceed the limit is rejected before any
mutation with a user-visible error toast (and no state change ever happens
without the success toast); an over-capacity AI deployment is silently
dropped, leaving the state untouched. -/
theorem C7_deployment_ceiling :
    (∀ (env : OracleEnv) (ev : WorldEvent) (st : WorkState) (C : String)
        (T : UnitType),
      (∀ p ∈ st.countries, (p.2 : Country).name = p.1) →
      (∀ l u, env.deployResult st.tick = some l → l.head? = some u →
        ev.unitType = some u.type) →
      (∃ n : ℕ, maxUnitsOf st.arsenal C T = (n : ℚ)) →
      (unitCount st.militaryUnits C T : ℚ) ≤ maxUnitsOf st.arsenal C T →
      (unitCount (deployUnitHandler env ev st).militaryUnits C T : ℚ) ≤
        maxUnitsOf (deployUnitHandler env ev st).arsenal C T) ∧
    (∀ (prev : GameState) (proposed : Option (List ProposedUnit)) (now : Nat)
        (C : String) (T : UnitType),
      (unitCount prev.militaryUnits C T : ℚ) ≤ maxUnitsOf prev.arsenal C T →
      (unitCount (handleDeployUnit prev proposed now).1.militaryUnits C T : ℚ) ≤
        maxUnitsOf prev.arsenal C T) ∧
    (∀ (prev : GameState) (proposed : Option (List ProposedUnit)) (now : Nat),
      (handleDeployUnit prev proposed now).1 = prev ∨
      (handleDeployUnit prev proposed now).2 =
        [{ message := "unit(s) deployed successfully.", ttype := .success }]) ∧
    (∀ (prev : GameState) (pus : List ProposedUnit) (now : Nat)
        (playerName : String) (country : Country)
        (countryArsenal : CountryArsenal) (viol : UnitType),
      prev.playerCountryName = some playerName → playerName ≠ "" →
      prev.countries.get playerName = some country →
      ¬pus.length = 0 →
      prev.arsenal.get country.name = some countryArsenal →
      (pus.foldl (fun acc u => jsSetAdd acc u.type) []).find?
        (fun t => decide (((unitCount prev.militaryUnits country.name t : ℚ) +
          ((pus.filter (fun u => decide (u.type = t))).length : ℚ)) >
          (countryArsenal.get t).maxUnits)) = some viol →
      handleDeployUnit prev (some pus) now =
        (prev, [{ message := "Deployment failed: insufficient slots available."
                  ttype := .error }])) ∧
    (∀ (env : OracleEnv) (ev : WorldEvent) (st : WorkState) (cn : String)
        (country : Country) (uType : UnitType) (loc : String),
      ev.countries.head? = some cn → st.countries.get cn = some country →
      ev.unitType = some uType → ev.locationDescription = some loc → loc ≠ "" →
      (unitCount st.militaryUnits cn uType : ℚ) ≥ maxUnitsOf st.arsenal cn uType →
      deployUnitHandler env ev st = st) :=
  ⟨deployUnitHandler_ceiling, handleDeployUnit_ceiling,
   handleDeployUnit_no_mutation_unless_success, handleDeployUnit_reject,
   deployUnitHandler_over_capacity⟩

/-- Witness for C7 on concrete capacity-respecting deployments of both paths. -/
theorem C7_deployment_ceiling_witness :
    ((unitCount (deployUnitHandler envNavy evDeployNavy workC7).militaryUnits
        "Atlantis" UnitType.NAVY : ℚ) ≤
      maxUnitsOf (deployUnitHandler envNavy evDeployNavy workC7).arsenal
        "Atlantis" UnitType.NAVY) ∧
    ((unitCount (handleDeployUnit playerState (some [proposedNavy]) 3).1.militaryUnits
        "Atlantis" UnitType.NAVY : ℚ) ≤
      maxUnitsOf playerState.arsenal "Atlantis" UnitType.NAVY) := by
  constructor
  · apply C7_deployment_ceiling.1 envNavy evDeployNavy workC7 "Atlantis" UnitType.NAVY
    · decide
    · intro l u h1 h2
      have h1b : some [proposedNavy] = some l := h1
      injection h1b with h1c
      subst h1c
      have h2b : some proposedNavy = some u := h2
      injection h2b with h2c
      subst h2c
      rfl
    · refine ⟨5, ?_⟩
      norm_num [maxUnitsOf, workC7, arsenalAtlantis, StrMap.get, CountryArsenal.get]
    · have h0 : unitCount workC7.militaryUnits "Atlantis" UnitType.NAVY = 0 := by decide
      have h5 : maxUnitsOf workC7.arsenal "Atlantis" UnitType.NAVY = 5 := by
        norm_num [maxUnitsOf, workC7, arsenalAtlantis, StrMap.get, CountryArsenal.get]
      rw [h0, h5]
      norm_num
  · apply C7_deployment_ceiling.2.1 playerState (some [proposedNavy]) 3 "Atlantis" UnitType.NAVY
    have h0 : unitCount playerState.militaryUnits "Atlantis" UnitType.NAVY = 0 := by decide
    have h5 : maxUnitsOf playerState.arsenal "Atlantis" UnitType.NAVY = 5 := by
      norm_num [maxUnitsOf, playerState, arsenalAtlantis, StrMap.get, CountryArsenal.get]
    rw [h0, h5]
    norm_num

/-- C7 counterexample: the AI deploy handler checks capacity for the
requested NAVY type but stores the oracle's ARMY unit, pushing the ARMY
count past its ceiling. -/
theorem C7_counterexample :
    ¬((unitCount (deployUnitHandler envRogue evDeployNavy workC7).militaryUnits
        "Atlantis" UnitType.ARMY : ℚ) ≤
      maxUnitsOf (deployUnitHandler envRogue evDeployNavy workC7).arsenal
        "Atlantis" UnitType.ARMY) := by
  have hcap : ¬((unitCount workC7.militaryUnits "Atlantis" UnitType.NAVY : ℚ) ≥
      maxUnitsOf workC7.arsenal "Atlantis" UnitType.NAVY) := by
    have h0 : unitCount workC7.militaryUnits "Atlantis" UnitType.NAVY = 0 := by decide
    have h5 : maxUnitsOf workC7.arsenal "Atlantis" UnitType.NAVY = 5 := by
      norm_num [maxUnitsOf, workC7, arsenalAtlantis, StrMap.get, CountryArsenal.get]
    rw [h0, h5]
    norm_num
  have heq : deployUnitHandler envRogue evDeployNavy workC7 =
      { workC7 with
        militaryUnits := workC7.militaryUnits.insert
          (unitFromProposal "Atlantis" UnitType.NAVY 7 proposedRogueArmy).id
          (unitFromProposal "Atlantis" UnitType.NAVY 7 proposedRogueArmy)
        tick := 1 } := by
    unfold deployUnitHandler
    rw [show evDeployNavy.countries.head? = some "Atlantis" from rfl]
    try dsimp only
    rw [show workC7.countries.get "Atlantis" = some countryAtlantis from rfl,
        show evDeployNavy.unitType = some UnitType.NAVY from rfl,
        show evDeployNavy.locationDescription = some "harbor" from rfl]
    try dsimp only
    rw [if_neg (by decide : ¬("harbor" = ""))]
    rw [if_neg hcap]
    rw [show envRogue.deployResult workC7.tick = some [proposedRogueArmy] from rfl]
    try dsimp only
    rw [show ([proposedRogueArmy] : List ProposedUnit).head? = some proposedRogueArmy from rfl]
    rfl
  intro hle
  rw [heq] at hle
  dsimp only at hle
  have hcount : unitCount (workC7.militaryUnits.insert
      (unitFromProposal "Atlantis" UnitType.NAVY 7 proposedRogueArmy).id
      (unitFromProposal "Atlantis" UnitType.NAVY 7 proposedRogueArmy))
      "Atlantis" UnitType.ARMY = 2 := by decide
  have hmax : maxUnitsOf workC7.arsenal "Atlantis" UnitType.ARMY = 1 := by
    norm_num [maxUnitsOf, workC7, arsenalAtlantis, StrMap.get, CountryArsenal.get]
  rw [hcount, hmax] at hle
  norm_num at hle

/-! ## Orders-log lemmas -/

theorem StrMap.mem_values_insert {α : Type} {m : StrMap α} {k : String} {x v : α}
    (h : v ∈ (m.insert k x).values) : v = x ∨ v ∈ m.values := by
  rcases StrMap.exists_key_of_mem_values h with ⟨k2, hk2⟩
  rcases StrMap.mem_insert hk2 with h2 | h2
  · left
    exact congrArg Prod.snd h2
  · right
    exact List.mem_map_of_mem Prod.snd h2

theorem StrMap.mem_values_erase {α : Type} {m : StrMap α} {k : String} {v : α}
    (h : v ∈ (m.erase k).values) : v ∈ m.values := by
  rcases List.mem_map.mp h with ⟨p, hp, hv⟩
  exact hv ▸ List.mem_map_of_mem Prod.snd (List.mem_of_mem_filter hp)

theorem StrMap.mem_values_foldl_insert {α β : Type} (g : β → String) (f : β → α) :
    ∀ (l : List β) (m : StrMap α) (v : α),
    v ∈ ((l.foldl (fun m t => m.insert (g t) (f t)) m).values) →
    (∃ t ∈ l, v = f t) ∨ v ∈ m.values := by
  intro l
  induction l with
  | nil => intro m v h; exact Or.inr h
  | cons t ts ih =>
    intro m v h
    simp only [List.foldl_cons] at h
    rcases ih _ v h with h2 | h2
    · rcases h2 with ⟨t2, ht2, hv⟩
      exact Or.inl ⟨t2, List.mem_cons_of_mem _ ht2, hv⟩
    · rcases StrMap.mem_values_insert h2 with h3 | h3
      · exact Or.inl ⟨t, List.mem_cons_self _ _, h3⟩
      · exact Or.inr h3

theorem StrMap.mem_values_foldl_erase {α : Type} :
    ∀ (ids : List String) (m : StrMap α) (v : α),
    v ∈ ((ids.foldl (fun m i => m.erase i) m).values) → v ∈ m.values := by
  intro ids
  induction ids with
  | nil => intro m v h; exact h
  | cons i is ih =>
    intro m v h
    simp only [List.foldl_cons] at h
    exact StrMap.mem_values_erase (ih _ v h)

theorem take_append_absorb {α : Type} (n : Nat) (A B : List α) :
    (A ++ B.take n).take n = (A ++ B).take n := by
  rw [List.take_append_eq_append_take, List.take_append_eq_append_take,
    List.take_take, Nat.min_eq_left (Nat.sub_le _ _)]

/-- The `GENERAL_ORDER` branch of `handleUnitOrder` in closed form. -/
theorem handleUnitOrder_general_eq {s : GameState} {uid : String}
    {u : MilitaryUnit} (h : s.militaryUnits.get uid = some u) (o oc : String) :
    handleUnitOrder s uid o
      { actionType := .GENERAL_ORDER, outcomeText := oc, newCoordinates := none
        newUnitsToCreate := none, mergedUnit := none, unitIdsToRemove := none } 0 =
      { s with militaryUnits := s.militaryUnits.insert uid (updateLog s.year u o oc) } := by
  unfold handleUnitOrder
  rw [h]
  try dsimp only
  try rw [h]

theorem issueGeneralOrders_log (uid : String) :
    ∀ (orders : List (String × String)) (s : GameState) (u : MilitaryUnit),
    s.militaryUnits.get uid = some u → u.ordersLog.length ≤ 10 →
    ∃ u2, (issueGeneralOrders s uid orders).militaryUnits.get uid = some u2 ∧
      u2.ordersLog = ((orders.map (fun p =>
        ({ year := s.year, order := p.1, outcome := p.2 } : OrdersLogEntry))).reverse ++
        u.ordersLog).take 10 := by
  intro orders
  induction orders with
  | nil =>
    intro s u h hlen
    refine ⟨u, h, ?_⟩
    simp [List.take_of_length_le hlen]
  | cons p ps ih =>
    intro s u h hlen
    have hstep : issueGeneralOrders s uid (p :: ps) =
        issueGeneralOrders
          { s with militaryUnits := s.militaryUnits.insert uid (updateLog s.year u p.1 p.2) }
          uid ps := by
      unfold issueGeneralOrders
      rw [List.foldl_cons]
      try dsimp only
      rw [handleUnitOrder_general_eq h p.1 p.2]
    rw [hstep]
    have hget2 : ({ s with militaryUnits :=
        s.militaryUnits.insert uid (updateLog s.year u p.1 p.2) } : GameState).militaryUnits.get uid =
        some (updateLog s.year u p.1 p.2) := StrMap.get_insert_self _ _ _
    have hlen2 : (updateLog s.year u p.1 p.2).ordersLog.length ≤ 10 := by
      simp [updateLog]
    obtain ⟨u2, hu2, hlog⟩ := ih _ _ hget2 hlen2
    refine ⟨u2, hu2, ?_⟩
    rw [hlog]
    show _ = ((List.map _ (p :: ps)).reverse ++ u.ordersLog).take 10
    rw [List.map_cons, List.reverse_cons, List.append_assoc]
    rw [show (updateLog s.year u p.1 p.2).ordersLog =
      (({ year := s.year, order := p.1, outcome := p.2 } : OrdersLogEntry) :: u.ordersLog).take 10
      from rfl]
    rw [take_append_absorb]
    rfl

theorem updateLog_length_le (yr : Int) (u : MilitaryUnit) (o oc : String) :
    (updateLog yr u o oc).ordersLog.length ≤ 10 := by
  simp [updateLog]

/-- Full case sweep: `handleUnitOrder` never lets any unit's log exceed 10
entries, given that no input log exceeds 10. -/
theorem handleUnitOrder_log_bound (s : GameState) (uid : String) (o : String)
    (outcome : UnitActionOutcome) (now : Nat)
    (hbound : ∀ v ∈ s.militaryUnits.values, v.ordersLog.length ≤ 10) :
    ∀ v ∈ (handleUnitOrder s uid o outcome now).militaryUnits.values,
      v.ordersLog.length ≤ 10 := by
  intro v hv
  rcases hget : s.militaryUnits.get uid with _ | unit
  · rw [show handleUnitOrder s uid o outcome now = s from by
      unfold handleUnitOrder; rw [hget]] at hv
    exact hbound v hv
  · rcases hact : outcome.actionType
    case RELOCATE =>
      rcases hnc : outcome.newCoordinates with _ | nc
      · rw [show handleUnitOrder s uid o outcome now = s from by
          unfold handleUnitOrder; rw [hget]; try dsimp only; rw [hact]
          try dsimp only; rw [hnc]] at hv
        exact hbound v hv
      · rw [show handleUnitOrder s uid o outcome now =
            { s with militaryUnits := (s.militaryUnits.insert uid
              (updateLog s.year { unit with coordinates := nc } o outcome.outcomeText)) } from by
          unfold handleUnitOrder; rw [hget]; try dsimp only; rw [hact]
          try dsimp only; rw [hnc]] at hv
        rcases StrMap.mem_values_insert hv with h | h
        · rw [h]
          exact updateLog_length_le _ _ _ _
        · exact hbound v h
    case RETREAT =>
      rcases hnc : outcome.newCoordinates with _ | nc
      · rw [show handleUnitOrder s uid o outcome now = s from by
          unfold handleUnitOrder; rw [hget]; try dsimp only; rw [hact]
          try dsimp only; rw [hnc]] at hv
        exact hbound v hv
      · rw [show handleUnitOrder s uid o outcome now =
            { s with militaryUnits := (s.militaryUnits.insert uid
              (updateLog s.year { unit with coordinates := nc } o outcome.outcomeText)) } from by
          unfold handleUnitOrder; rw [hget]; try dsimp only; rw [hact]
          try dsimp only; rw [hnc]] at hv
        rcases StrMap.mem_values_insert hv with h | h
        · rw [h]
          exact updateLog_length_le _ _ _ _
        · exact hbound v h
    case SPLIT =>
      rcases h1 : outcome.unitIdsToRemove with _ | ids
      · rw [show handleUnitOrder s uid o outcome now = s from by
          unfold handleUnitOrder; rw [hget]; try dsimp only; rw [hact]
          try dsimp only; rw [h1]] at hv
        exact hbound v hv
      · rcases h2 : outcome.newUnitsToCreate with _ | parts
        · rw [show handleUnitOrder s uid o outcome now = s from by
            unfold handleUnitOrder; rw [hget]; try dsimp only; rw [hact]
            try dsimp only; rw [h1, h2]] at hv
          exact hbound v hv
        · by_cases hin : uid ∈ ids
          · rw [show handleUnitOrder s uid o outcome now =
                { s with militaryUnits := parts.enum.foldl (fun m p =>
                    let newUnit : MilitaryUnit :=
                      { name := p.2.name, leader := p.2.leader
                        composition := p.2.composition, strength := p.2.strength
                        id := unit.owner ++ "-split-" ++ toString now ++ "-" ++ toString p.1
                        owner := unit.owner, type := unit.type
                        coordinates := unit.coordinates
                        currentOrder := "Awaiting orders."
                        ordersLog := [{ year := s.year, order := "Formed from split command",
                                        outcome := "Split from " ++ unit.name }] }
                    m.insert newUnit.id newUnit) (s.militaryUnits.erase uid) } from by
              unfold handleUnitOrder; rw [hget]; try dsimp only; rw [hact]
              try dsimp only; rw [h1, h2]; try dsimp only; rw [if_pos hin]] at hv
            rcases StrMap.mem_values_foldl_insert _ _ parts.enum _ v hv with h | h
            · rcases h with ⟨t, _, hvt⟩
              rw [hvt]
              simp
            · exact hbound v (StrMap.mem_values_erase h)
          · rw [show handleUnitOrder s uid o outcome now = s from by
              unfold handleUnitOrder; rw [hget]; try dsimp only; rw [hact]
              try dsimp only; rw [h1, h2]; try dsimp only; rw [if_neg hin]] at hv
            exact hbound v hv
    case MERGE =>
      rcases h1 : outcome.unitIdsToRemove with _ | ids
      · rw [show handleUnitOrder s uid o outcome now = s from by
          unfold handleUnitOrder; rw [hget]; try dsimp only; rw [hact]
          try dsimp only; rw [h1]] at hv
        exact hbound v hv
      · rcases h2 : outcome.mergedUnit with _ | mergedUnitData
        · rw [show handleUnitOrder s uid o outcome now = s from by
            unfold handleUnitOrder; rw [hget]; try dsimp only; rw [hact]
            try dsimp only; rw [h1, h2]] at hv
          exact hbound v hv
        · rw [show handleUnitOrder s uid o outcome now =
              { s with militaryUnits :=
                ((ids.foldl (fun m i => m.erase i) s.militaryUnits).insert
                  (unit.owner ++ "-merged-" ++ toString now)
                  { name := mergedUnitData.name, leader := mergedUnitData.leader
                    composition := mergedUnitData.composition
                    strength := mergedUnitData.strength
                    id := unit.owner ++ "-merged-" ++ toString now
                    owner := unit.owner, type := unit.type
                    coordinates := unit.coordinates
                    currentOrder := o
                    ordersLog := [{ year := s.year, order := o,
                                    outcome := outcome.outcomeText }] }) } from by
            unfold handleUnitOrder; rw [hget]; try dsimp only; rw [hact]
            try dsimp only; rw [h1, h2]] at hv
          rcases StrMap.mem_values_insert hv with h | h
          · rw [h]
            simp
          · exact hbound v (StrMap.mem_values_foldl_erase _ _ _ h)
    case GENERAL_ORDER =>
      rw [show handleUnitOrder s uid o outcome now =
          { s with militaryUnits := (s.militaryUnits.insert uid
            (updateLog s.year unit o outcome.outcomeText)) } from by
        unfold handleUnitOrder; rw [hget]; try dsimp only; rw [hact]
        try dsimp only; try rw [hget]] at hv
      rcases StrMap.mem_values_insert hv with h | h
      · rw [h]
        exact updateLog_length_le _ _ _ _
      · exact hbound v h

/-- C8: after N ≥ 10 general orders to one unit, its log has exactly the 10
most recent entries, newest first; and no handler branch ever lets a log
exceed 10 entries. -/
theorem C8_orders_log_bound :
    (∀ (s : GameState) (uid : String) (u : MilitaryUnit)
        (orders : List (String × String)),
      s.militaryUnits.get uid = some u → u.ordersLog.length ≤ 10 →
      10 ≤ orders.length →
      ∃ u2, (issueGeneralOrders s uid orders).militaryUnits.get uid = some u2 ∧
        u2.ordersLog.length = 10 ∧
        u2.ordersLog = ((orders.map (fun p =>
          ({ year := s.year, order := p.1, outcome := p.2 } : OrdersLogEntry))).reverse).take 10) ∧
    (∀ (s : GameState) (uid : String) (o : String) (outcome : UnitActionOutcome)
        (now : Nat),
      (∀ v ∈ s.militaryUnits.values, v.ordersLog.length ≤ 10) →
      ∀ v ∈ (handleUnitOrder s uid o outcome now).militaryUnits.values,
        v.ordersLog.length ≤ 10) := by
  constructor
  · intro s uid u orders hget hlen hN
    obtain ⟨u2, hu2, hlog⟩ := issueGeneralOrders_log uid orders s u hget hlen
    have hrevlen : 10 ≤ ((orders.map (fun p =>
        ({ year := s.year, order := p.1, outcome := p.2 } : OrdersLogEntry))).reverse).length := by
      simpa using hN
    have hsplit : u2.ordersLog = ((orders.map (fun p =>
        ({ year := s.year, order := p.1, outcome := p.2 } : OrdersLogEntry))).reverse).take 10 := by
      rw [hlog, List.take_append_of_le_length hrevlen]
    refine ⟨u2, hu2, ?_, hsplit⟩
    rw [hsplit, List.length_take]
    omega
  · exact handleUnitOrder_log_bound

/-- Witness for C8: eleven orders to one unit leave the ten newest. -/
theorem C8_orders_log_bound_witness :
    ∃ u2, (issueGeneralOrders unitState "u1" ordersTen).militaryUnits.get "u1" =
        some u2 ∧
      u2.ordersLog.length = 10 ∧
      u2.ordersLog = ((ordersTen.map (fun p =>
        ({ year := unitState.year, order := p.1, outcome := p.2 } : OrdersLogEntry))).reverse).take 10 :=
  C8_orders_log_bound.1 unitState "u1" unitU1 ordersTen (by decide) (by decide)
    (by decide)

/-! ## City rename lemmas -/

theorem string_append_right_cancel {a b s : String} (h : a ++ s = b ++ s) :
    a = b := by
  rcases a with ⟨la⟩
  rcases b with ⟨lb⟩
  rcases s with ⟨ls⟩
  have h2 : la ++ ls = lb ++ ls := by
    have := congrArg String.data h
    simpa using this
  have h3 : la = lb := List.append_cancel_right h2
  rw [h3]

theorem cityRenamedHandler_eq {ev : WorldEvent} (st : WorkState) {o n : String}
    (ho : ev.cityName = some o) (hn : ev.newCityName = some n)
    (ho2 : o ≠ "") (hn2 : n ≠ "") :
    cityRenamedHandler ev st =
      { st with cities := st.cities.map (fun city =>
          if city.name = o then
            { city with name := n, id := n ++ "-" ++ city.territoryId }
          else city) } := by
  unfold cityRenamedHandler
  rw [ho, hn]
  try dsimp only
  rw [if_neg (by simp [ho2, hn2])]

/-- C9: CITY_RENAMED renames every matching city and regenerates its id from
the new name, so the canonical old id no longer resolves; other cities are
untouched. -/
theorem C9_city_rename (ev : WorldEvent) (st : WorkState) (o n : String)
    (ho : ev.cityName = some o) (hn : ev.newCityName = some n)
    (ho2 : o ≠ "") (hn2 : n ≠ "") (hon : o ≠ n) :
    (∀ c ∈ st.cities, c.name ≠ o → c ∈ (cityRenamedHandler ev st).cities) ∧
    (∀ c ∈ st.cities, c.name = o →
      ({ c with name := n, id := n ++ "-" ++ c.territoryId } : City) ∈
        (cityRenamedHandler ev st).cities) ∧
    (∀ c2 ∈ (cityRenamedHandler ev st).cities, c2.name ≠ o) ∧
    ((cityRenamedHandler ev st).cities.length = st.cities.length) ∧
    (∀ c ∈ st.cities, c.name = o → c.id = o ++ "-" ++ c.territoryId →
      n ++ "-" ++ c.territoryId ≠ c.id) ∧
    (∀ c ∈ st.cities, c.name = o → c.id = o ++ "-" ++ c.territoryId →
      (∀ c2 ∈ st.cities, c2.name ≠ o → c2.id ≠ c.id) →
      (∀ c2 ∈ st.cities, c2.name = o → n ++ "-" ++ c2.territoryId ≠ c.id) →
      ∀ c2 ∈ (cityRenamedHandler ev st).cities, c2.id ≠ c.id) := by
  have hred := cityRenamedHandler_eq st ho hn ho2 hn2
  refine ⟨?_, ?_, ?_, ?_, ?_, ?_⟩
  · intro c hc hname
    rw [hred]
    have : (if c.name = o then
        ({ c with name := n, id := n ++ "-" ++ c.territoryId } : City)
      else c) = c := if_neg hname
    rw [show c = (if c.name = o then
        ({ c with name := n, id := n ++ "-" ++ c.territoryId } : City)
      else c) from this.symm]
    exact List.mem_map_of_mem _ hc
  · intro c hc hname
    rw [hred]
    have : (if c.name = o then
        ({ c with name := n, id := n ++ "-" ++ c.territoryId } : City)
      else c) = { c with name := n, id := n ++ "-" ++ c.territoryId } := if_pos hname
    rw [← this]
    exact List.mem_map_of_mem _ hc
  · intro c2 hc2
    rw [hred] at hc2
    rcases List.mem_map.mp hc2 with ⟨c, _, hmap⟩
    by_cases hname : c.name = o
    · rw [← hmap, if_pos hname]
      simpa using Ne.symm hon
    · rw [← hmap, if_neg hname]
      exact hname
  · rw [hred]
    exact List.length_map _ _
  · intro c _ _ hid heq
    rw [hid] at heq
    have h1 : n ++ "-" = o ++ "-" := string_append_right_cancel heq
    have h2 : n = o := string_append_right_cancel h1
    exact hon h2.symm
  · intro c hc hname hid hother hrenamed c2 hc2
    rw [hred] at hc2
    rcases List.mem_map.mp hc2 with ⟨c3, hc3, hmap⟩
    by_cases hname3 : c3.name = o
    · rw [← hmap, if_pos hname3]
      exact hrenamed c3 hc3 hname3
    · rw [← hmap, if_neg hname3]
      exact hother c3 hc3 hname3

/-- Witness for C9: Scenario B, Berlin becomes New Berlin with a fresh id
and the old id "Berlin-Germany" no longer resolves. -/
theorem C9_city_rename_witness :
    (({ cityBerlin with
          name := "New Berlin"
          id := "New Berlin" ++ "-" ++ cityBerlin.territoryId } : City) ∈
      (cityRenamedHandler evRenameBerlin workB).cities) ∧
    ("New Berlin" ++ "-" ++ cityBerlin.territoryId ≠ cityBerlin.id) ∧
    (∀ c2 ∈ (cityRenamedHandler evRenameBerlin workB).cities,
      c2.id ≠ cityBerlin.id) := by
  refine ⟨?_, ?_, ?_⟩
  · exact (C9_city_rename evRenameBerlin workB "Berlin" "New Berlin" rfl rfl
      (by decide) (by decide) (by decide)).2.1 cityBerlin
      (List.mem_cons_self _ _) (by decide)
  · exact (C9_city_rename evRenameBerlin workB "Berlin" "New Berlin" rfl rfl
      (by decide) (by decide) (by decide)).2.2.2.2.1 cityBerlin
      (List.mem_cons_self _ _) (by decide) (by decide)
  · exact (C9_city_rename evRenameBerlin workB "Berlin" "New Berlin" rfl rfl
      (by decide) (by decide) (by decide)).2.2.2.2.2 cityBerlin
      (List.mem_cons_self _ _) (by decide) (by decide)
      (by intro c2 hc2 hne; cases hc2 with
        | head => exact absurd rfl hne
        | tail _ h => cases h)
      (by intro c2 hc2 _; cases hc2 with
        | head => exact (by decide)
        | tail _ h => cases h)

/-! ## Chat turn race lemmas -/

theorem updateChat_get (s : GameState) (chatId : String)
    (f : DiplomaticChat → DiplomaticChat) :
    (updateChat s chatId f).chats.get chatId = (s.chats.get chatId).map f := by
  unfold updateChat
  rcases h : s.chats.get chatId with _ | c
  · simpa using h
  · dsimp only
    rw [StrMap.get_insert_self]
    rfl

theorem updateChat_player (s : GameState) (chatId : String)
    (f : DiplomaticChat → DiplomaticChat) :
    (updateChat s chatId f).playerCountryName = s.playerCountryName := by
  unfold updateChat
  split <;> rfl

/-- C10: an interrupt that lands while a turn-advance is awaiting the oracle
wins the race — the resumed continuation re-reads the chat, sees the speaker
is no longer the sentinel, discards its result, and the player keeps the
floor. -/
theorem C10_interrupt_race (s : GameState) (chatId : String) (p : String)
    (r : ChatTurnResult) (hp : s.playerCountryName = some p) (hpne : p ≠ "")
    (hc : (s.chats.get chatId).isSome) :
    advanceChatTurnResolve
        (handleInterrupt (advanceChatTurnStart s chatId) chatId) chatId r =
      handleInterrupt (advanceChatTurnStart s chatId) chatId ∧
    ((handleInterrupt (advanceChatTurnStart s chatId) chatId).chats.get chatId).map
      DiplomaticChat.currentSpeaker = some (some p) := by
  rcases hc0 : s.chats.get chatId with _ | c0
  · rw [hc0] at hc
    exact absurd hc (by simp)
  have hs1 : advanceChatTurnStart s chatId =
      updateChat s chatId (fun c => { c with currentSpeaker := none }) := by
    unfold advanceChatTurnStart
    rw [hp]
    try dsimp only
    rw [if_neg hpne]
    try dsimp only
    rw [hc0]
  have hs1p : (advanceChatTurnStart s chatId).playerCountryName = some p := by
    rw [hs1, updateChat_player, hp]
  have hs1c : (advanceChatTurnStart s chatId).chats.get chatId =
      some { c0 with currentSpeaker := none } := by
    rw [hs1, updateChat_get, hc0]
    rfl
  have hs2 : handleInterrupt (advanceChatTurnStart s chatId) chatId =
      updateChat (advanceChatTurnStart s chatId) chatId
        (fun c => { c with currentSpeaker := some p }) := by
    unfold handleInterrupt
    rw [hs1p]
    try dsimp only
    rw [if_neg hpne]
  have hs2c : (handleInterrupt (advanceChatTurnStart s chatId) chatId).chats.get chatId =
      some { c0 with currentSpeaker := some p } := by
    rw [hs2, updateChat_get, hs1c]
    rfl
  constructor
  · unfold advanceChatTurnResolve
    rw [hs2c]
    try dsimp only
    rw [if_pos (by simp)]
  · rw [hs2c]
    rfl

/-- Witness for C10: Scenario E on a concrete two-party chat. -/
theorem C10_interrupt_race_witness :
    advanceChatTurnResolve
        (handleInterrupt (advanceChatTurnStart chatState "chat_1") "chat_1")
        "chat_1" turnResultB =
      handleInterrupt (advanceChatTurnStart chatState "chat_1") "chat_1" ∧
    ((handleInterrupt (advanceChatTurnStart chatState "chat_1") "chat_1").chats.get
      "chat_1").map DiplomaticChat.currentSpeaker = some (some "Atlantis") :=
  C10_interrupt_race chatState "chat_1" "Atlantis" turnResultB rfl (by decide)
    (by decide)

end Pax
